import Mathlib

/-!
Verification of the statistical core of the Project-chairman repository
(`src/chairman/core.py` and `streamlit_app.py`).

Modelling conventions.  Python floats are modelled as rationals (every stat
value handled by the code is an exact small decimal, and the guards the code
uses are exact comparisons with zero).  Python dicts of stats are modelled as
association lists with at most one binding per key (`dictOfZip` reproduces
dict construction, later bindings overwriting earlier ones).  Fallible Python
code (`raise` / `try` / `except`) is modelled with `Except String`.  Network
calls are I/O: the fetch *outcomes* are passed to the modelled functions as
explicit `Except`-valued parameters, and everything the repository computes
from those outcomes is translated from the source.
-/

namespace Chairman

/-- A game row: a Python dict from field names to numeric stat values.
(`float(...)` conversions are modelled by the values already being `ℚ`.) -/
abbrev Row := List (String × ℚ)

/-- Dict lookup `g[k]` / `g.get(k)` as an `Option`.  Rows keep at most one
binding per key (see `dictOfZip`), so first-match lookup is dict lookup. -/
def rowGet (g : Row) (k : String) : Option ℚ :=
  (g.find? (fun p => p.1 == k)).map (fun p => p.2)

/-- Python `g.get(k, 0)`. -/
def rowGetD (g : Row) (k : String) : ℚ := (rowGet g k).getD 0

/-- Python `dict(zip(headers, row))`: `zip` truncates to the shorter list and
later duplicate keys overwrite earlier ones. -/
def dictOfZip (headers : List String) (row : List ℚ) : Row :=
  (headers.zip row).foldl
    (fun acc kv => (acc.filter (fun p => p.1 != kv.1)) ++ [kv]) []

/-- The per-player summary dict produced by both averagers.  Field names map
to the Python dict keys verbatim except: `TPM` is the key "3PM", `FGpct` is
"FG%", `FTpct` is "FT%". -/
structure Summary where
  games_used : ℕ
  PTS : ℚ
  REB : ℚ
  AST : ℚ
  STL : ℚ
  BLK : ℚ
  TOV : ℚ
  TPM : ℚ
  FGM_pg : ℚ
  FGA_pg : ℚ
  FTM_pg : ℚ
  FTA_pg : ℚ
  FGpct : ℚ
  FTpct : ℚ
  deriving DecidableEq, Repr

/-- The all-zero summary (`games_used = 0`, every numeric field `0.0`). -/
def zeroSummary : Summary := ⟨0, 0, 0, 0, 0, 0, 0, 0, 0, 0, 0, 0, 0, 0⟩

/-- The slice idiom `games[:n] if len(games) >= n else games` used by both
averagers (core.py lines 208 and 272). -/
def sliceFirst (games : List Row) (n : ℕ) : List Row :=
  if n ≤ games.length then games.take n else games

/-- Python `sum(float(g.get(k, 0)) for g in rows)` (fallback averager). -/
def statSum (rows : List Row) (k : String) : ℚ :=
  (rows.map (fun g => rowGetD g k)).sum

/-- `float(g[k])`: a missing key raises `KeyError`, modelled as an error. -/
def getReq (g : Row) (k : String) : Except String ℚ :=
  match rowGet g k with
  | some v => Except.ok v
  | none => Except.error ("KeyError: " ++ k)

/-- Python `sum(float(g[k]) for g in rows)` (primary averager): the sum of
the required field over the rows, failing at the first row lacking the key
(the Python generator raises there; values are summed, and ℚ-addition makes
the left-to-right and right-to-left sums equal). -/
def statSumRequired : List Row → String → Except String ℚ
  | [], _ => Except.ok 0
  | g :: rest, k =>
    match getReq g k with
    | Except.error e => Except.error e
    | Except.ok v =>
      match statSumRequired rest k with
      | Except.error e => Except.error e
      | Except.ok s => Except.ok (v + s)

/-- Averaging part of `_bdl_last_n_averages` (core.py lines 208–256): the
explicit all-zero dict on an empty window, otherwise `g.get(k, 0)`-style
sums divided by `max(1, len(recent))`, with attempt-guarded percentages
(`(fgm / fga) if fga else 0.0`). -/
def bdlAverageRows (games : List Row) (n : ℕ) : Summary :=
  let recent := sliceFirst games n
  if recent = [] then zeroSummary
  else
    let fgm := statSum recent "fgm"
    let fga := statSum recent "fga"
    let ftm := statSum recent "ftm"
    let fta := statSum recent "fta"
    let pts := statSum recent "pts"
    let reb := statSum recent "reb"
    let ast := statSum recent "ast"
    let stl := statSum recent "stl"
    let blk := statSum recent "blk"
    let tov := statSum recent "turnover"
    let threes := statSum recent "fg3m"
    let gamesCount : ℚ := (max 1 recent.length : ℕ)
    ⟨recent.length, pts / gamesCount, reb / gamesCount, ast / gamesCount,
      stl / gamesCount, blk / gamesCount, tov / gamesCount, threes / gamesCount,
      fgm / gamesCount, fga / gamesCount, ftm / gamesCount, fta / gamesCount,
      if fga = 0 then 0 else fgm / fga,
      if fta = 0 then 0 else ftm / fta⟩

/-- Averaging part of the `try` block of `_last_n_averages_by_id`
(core.py lines 272–303): required-key (`g["FGM"]`-style) sums over the
leading window, divided by `max(1, len(recent))`, attempt-guarded
percentages. -/
def primaryAverages (games : List Row) (n : ℕ) : Except String Summary := do
  let recent := sliceFirst games n
  let fgm ← statSumRequired recent "FGM"
  let fga ← statSumRequired recent "FGA"
  let ftm ← statSumRequired recent "FTM"
  let fta ← statSumRequired recent "FTA"
  let pts ← statSumRequired recent "PTS"
  let reb ← statSumRequired recent "REB"
  let ast ← statSumRequired recent "AST"
  let stl ← statSumRequired recent "STL"
  let blk ← statSumRequired recent "BLK"
  let tov ← statSumRequired recent "TOV"
  let threes ← statSumRequired recent "FG3M"
  let gamesCount : ℚ := (max 1 recent.length : ℕ)
  pure ⟨recent.length, pts / gamesCount, reb / gamesCount, ast / gamesCount,
    stl / gamesCount, blk / gamesCount, tov / gamesCount, threes / gamesCount,
    fgm / gamesCount, fga / gamesCount, ftm / gamesCount, fta / gamesCount,
    if fga = 0 then 0 else fgm / fga,
    if fta = 0 then 0 else ftm / fta⟩

/-! ### Season normalization (`_normalize_nba_season`, `_season_start_year`)

Python string operations are modelled on `List Char`: `str.strip()` (ASCII
whitespace), substring test `"-" in s`, `s.split("-", 1)`, slicing `s[:4]`
and `s[-2:]`, `int(...)` parsing, and decimal formatting of integers. -/

/-- The ASCII whitespace stripped by Python `str.strip()`. -/
def isPySpace (c : Char) : Bool :=
  c == ' ' || c == '\t' || c == '\n' || c == '\r' || c == '\x0b' || c == '\x0c'

/-- Remove trailing `isPySpace` characters. -/
def stripEnd (l : List Char) : List Char :=
  (l.reverse.dropWhile isPySpace).reverse

/-- Python `str.strip()` (ASCII whitespace). -/
def pyStrip (l : List Char) : List Char := stripEnd (l.dropWhile isPySpace)

/-- Value of a decimal digit character. -/
def digitVal (c : Char) : Option ℕ :=
  if '0' ≤ c ∧ c ≤ '9' then some (c.toNat - '0'.toNat) else none

/-- Continue a digit run; a single underscore is allowed between digits
(Python `int` literal grammar). -/
def digitsAcc : List Char → ℕ → Option ℕ
  | [], acc => some acc
  | '_' :: c :: rest, acc =>
    match digitVal c with
    | some d => digitsAcc rest (acc * 10 + d)
    | none => none
  | c :: rest, acc =>
    match digitVal c with
    | some d => digitsAcc rest (acc * 10 + d)
    | none => none

/-- A nonempty digit run (with optional single underscores between digits). -/
def digitRun : List Char → Option ℕ
  | [] => none
  | c :: rest =>
    match digitVal c with
    | some d => digitsAcc rest d
    | none => none

/-- Python `int(str)`: surrounding whitespace, an optional sign, then a
nonempty digit run.  (ASCII digits/whitespace; `none` models the raised
`ValueError`.) -/
def pyInt (l : List Char) : Option Int :=
  match pyStrip l with
  | c :: rest =>
    if c = '+' then (digitRun rest).map (fun (v : ℕ) => (v : Int))
    else if c = '-' then (digitRun rest).map (fun (v : ℕ) => -(v : Int))
    else (digitRun (c :: rest)).map (fun (v : ℕ) => (v : Int))
  | [] => none

/-- Decimal digit character. -/
def digitChar (d : ℕ) : Char := Char.ofNat (48 + d)

/-- Fuel-driven decimal conversion (most significant digit first). -/
def natCharsAux : ℕ → ℕ → List Char
  | 0, _ => []
  | fuel + 1, n =>
    if n = 0 then [] else natCharsAux fuel (n / 10) ++ [digitChar (n % 10)]

/-- Decimal representation of a natural number, as Python `str` prints it. -/
def natChars (n : ℕ) : List Char := if n = 0 then ['0'] else natCharsAux n n

/-- Decimal representation of an integer, as Python `str` prints it. -/
def intChars (i : Int) : List Char :=
  if i < 0 then '-' :: natChars i.natAbs else natChars i.toNat

/-- Python `s.split("-", 1)`: the part before the first `'-'` and the part
after it (the code only uses this under a `"-" in s` guard). -/
def splitDash (l : List Char) : List Char × List Char :=
  (l.takeWhile (fun c => c != '-'), (l.dropWhile (fun c => c != '-')).tail)

/-- Python `s[-2:]`. -/
def lastTwo (l : List Char) : List Char := l.drop (l.length - 2)

/-- Python `f"{e:02d}"` for a nonnegative integer. -/
def pad2 (e : Int) : List Char :=
  let t := intChars e
  if t.length < 2 then '0' :: t else t

/-- `_normalize_nba_season` (core.py lines 53–72) on character lists.  The
final `except: return season` branch is the two `l` results (an `int(...)`
parse failed). -/
def normSeasonChars (l : List Char) : List Char :=
  let s := pyStrip l
  if s = [] then s
  else if '-' ∈ s ∧ ((splitDash s).2.length = 1 ∨ (splitDash s).2.length = 2) then s
  else if '-' ∈ s then
    let a := (splitDash s).1
    let b := (splitDash s).2
    match pyInt (a.take 4), if b.length = 4 then pyInt (b.take 4) else pyInt b with
    | some sy, some ey => intChars sy ++ '-' :: lastTwo (intChars ey)
    | _, _ => l
  else
    match pyInt (s.take 4) with
    | some sy => intChars sy ++ '-' :: pad2 ((sy + 1) % 100)
    | none => l

/-- `_normalize_nba_season` (core.py lines 53–72). -/
def _normalize_nba_season (season : String) : String :=
  (normSeasonChars season.data).asString

/-- The condition under which `_normalize_nba_season` hits its
`except: return season` branch: the stripped input is nonempty, not already
canonical, and the `int(...)` parse of the relevant fragment fails. -/
def normParseFails (l : List Char) : Prop :=
  let s := pyStrip l
  s ≠ [] ∧
  ¬('-' ∈ s ∧ ((splitDash s).2.length = 1 ∨ (splitDash s).2.length = 2)) ∧
  (if '-' ∈ s then
      pyInt ((splitDash s).1.take 4) = none ∨
        (if (splitDash s).2.length = 4 then pyInt ((splitDash s).2.take 4)
         else pyInt (splitDash s).2) = none
    else pyInt (s.take 4) = none)

instance (l : List Char) : Decidable (normParseFails l) := by
  unfold normParseFails
  exact inferInstance

/-- `_season_start_year` (core.py lines 75–83): `none` models `return None`
in the `except` branch. -/
def _season_start_year (season : String) : Option Int :=
  let s := pyStrip season.data
  if '-' ∈ s then pyInt ((splitDash s).1.take 4)
  else pyInt (s.take 4)

/-! ### Game-log extraction (`_extract_gamelog_rows`) -/

/-- Outcome of `gl.get_normalized_dict()` as inspected by shape (1):
the call may raise, the value may not be a dict, the dict may lack the
"PlayerGameLog" key, the value under the key may not be a list, or it is a
list of row dicts (possibly empty). -/
inductive NDShape
  | err (e : String)
  | notDict
  | missingKey
  | nonListVal
  | listVal (rows : List Row)
  deriving DecidableEq

/-- One `resultSets` table object: parallel `headers`/`rowSet` arrays, read
with `.get(..., [])` defaults.  `truthy` records Python truthiness of the
dict itself (nonemptiness), which the `or` between the two keys consults. -/
structure RSObj where
  truthy : Bool
  headers : List String
  rowSet : List (List ℚ)
  deriving DecidableEq

/-- An element of a `resultSets` list: a dict, or some non-dict value (on
which `rs[0].get(...)` raises, sending the code to shape (3)). -/
inductive RSElem
  | obj (o : RSObj)
  | nonDict
  deriving DecidableEq

/-- A value found under `resultSets` / `resultSet`: a list, a dict, or some
other value (with its Python truthiness). -/
inductive RSVal
  | pylist (items : List RSElem)
  | pydict (o : RSObj)
  | pyother (truthy : Bool)
  deriving DecidableEq

/-- Python truthiness of an `RSVal`. -/
def RSVal.isTruthy : RSVal → Bool
  | pylist items => !items.isEmpty
  | pydict o => o.truthy
  | pyother t => t

/-- The raw dict returned by `gl.get_dict()`, restricted to the two keys the
code reads; `none` models an absent key (or a `None` value). -/
structure RawDict where
  resultSets : Option RSVal
  resultSet : Option RSVal
  deriving DecidableEq

/-- `rd.get("resultSets") or rd.get("resultSet")` (Python `or`: the first
operand unless it is falsy). -/
def RawDict.rs (rd : RawDict) : Option RSVal :=
  match rd.resultSets with
  | some v => if v.isTruthy then some v else rd.resultSet
  | none => rd.resultSet

/-- A `PlayerGameLog` response, through the three accessors the extraction
code calls: `get_normalized_dict()`, `get_dict()` and `get_data_frames()`
(a data frame is modelled by its `to_dict(orient="records")` row list). -/
structure GLResponse where
  nd : NDShape
  raw : Except String RawDict
  frames : Except String (List (List Row))

/-- Shape (1) of `_extract_gamelog_rows` (core.py lines 101–109): the
normalized dict, when it holds a list under "PlayerGameLog". -/
def tryNormalized (gl : GLResponse) : Option (List Row) :=
  match gl.nd with
  | NDShape.listVal rows => some rows
  | _ => none

/-- Shape (2) of `_extract_gamelog_rows` (core.py lines 111–126): the raw
envelope, when the `resultSets` container (a list, first element used, or a
single dict) carries nonempty `headers` and `rowSet`. -/
def tryRaw (gl : GLResponse) : Option (List Row) :=
  match gl.raw with
  | Except.error _ => none
  | Except.ok rd =>
    match rd.rs with
    | some (RSVal.pylist (RSElem.obj o :: _)) =>
      if o.headers ≠ [] ∧ o.rowSet ≠ [] then
        some (o.rowSet.map (fun row => dictOfZip o.headers row))
      else none
    | some (RSVal.pydict o) =>
      if o.headers ≠ [] ∧ o.rowSet ≠ [] then
        some (o.rowSet.map (fun row => dictOfZip o.headers row))
      else none
    | _ => none

/-- Shape (3) of `_extract_gamelog_rows` (core.py lines 128–135): the first
data frame's records, when at least one frame exists. -/
def tryFrames (gl : GLResponse) : Option (List Row) :=
  match gl.frames with
  | Except.ok (df :: _) => some df
  | _ => none

/-- The error message of the final `raise` (core.py lines 137–139). -/
def unparsableMsg : String :=
  "Unable to parse PlayerGameLog response (no resultSets/normalized data)."

/-- `_extract_gamelog_rows` (core.py lines 97–139): the three shapes tried
in order, each `try`-block falling through to the next on failure of its
conditions (or on a raised exception), with the final `raise` when all
fall through. -/
def _extract_gamelog_rows (gl : GLResponse) : Except String (List Row) :=
  match tryNormalized gl with
  | some rows => Except.ok rows
  | none =>
    match tryRaw gl with
    | some rows => Except.ok rows
    | none =>
      match tryFrames gl with
      | some rows => Except.ok rows
      | none => Except.error unparsableMsg

/-- First success of an ordered list of parser strategies. -/
def firstSuccess : List (Option (List Row)) → Option (List Row)
  | [] => none
  | some r :: _ => some r
  | none :: rest => firstSuccess rest

/-! ### Fallback (`_bdl_last_n_averages`) and dispatch (`_last_n_averages_by_id`) -/

/-- `_bdl_last_n_averages` (core.py lines 179–256) as a function of the two
network outcomes it depends on: the id returned by `_bdl_find_player_id`
(`none` models both `None` and a raised-and-swallowed error there; Python
`if not pid` also rejects `pid = 0`) and the outcome of the `/stats` fetch.
On success the games are averaged by `bdlAverageRows`. -/
def bdlLastNAverages (bdlPid : Option Int) (season : String)
    (fetched : Except String (List Row)) (n : ℕ) (full_name : String) :
    Except String Summary :=
  match bdlPid with
  | none => Except.error ("balldontlie: no player found for " ++ full_name)
  | some pid =>
    if pid = 0 then Except.error ("balldontlie: no player found for " ++ full_name)
    else
      match _season_start_year season with
      | none => Except.error "balldontlie: invalid season format"
      | some _ =>
        match fetched with
        | Except.error e => Except.error ("balldontlie fetch failed: " ++ e)
        | Except.ok games => Except.ok (bdlAverageRows games n)

/-- The whole `try` block of `_last_n_averages_by_id` (core.py lines
263–303): constructing/fetching the game log (outcome `primaryResp`),
extracting rows, and averaging them; any failure falls into the `except`
handler. -/
def primaryPipeline (primaryResp : Except String GLResponse) (n : ℕ) :
    Except String Summary :=
  match primaryResp with
  | Except.error e => Except.error e
  | Except.ok gl =>
    match _extract_gamelog_rows gl with
    | Except.error e => Except.error e
    | Except.ok games => primaryAverages games n

/-- `_last_n_averages_by_id` (core.py lines 259–308): the primary pipeline,
falling back to `_bdl_last_n_averages` on any failure when a display name is
available, and re-raising the original error otherwise. -/
def lastNAveragesById (primaryResp : Except String GLResponse) (n : ℕ)
    (full_name : Option String) (bdlPid : Option Int) (season : String)
    (bdlFetched : Except String (List Row)) : Except String Summary :=
  match primaryPipeline primaryResp n with
  | Except.ok s => Except.ok s
  | Except.error e =>
    match full_name with
    | some nm => bdlLastNAverages bdlPid season bdlFetched n nm
    | none => Except.error e

/-! ### Team aggregation (`compute_team_stats`, `compute_team_stats_cached`)

The per-player average computation is network-dependent; its outcome is the
parameter `avg : Int → Except String Summary` (keyed by player id, as in
`_last_n_averages_by_id(pid, season, n)` / `cached_player_avg(pid, ...)`). -/

/-- The `totals` accumulator dict (11 keys). -/
structure Totals where
  PTS : ℚ
  REB : ℚ
  AST : ℚ
  STL : ℚ
  BLK : ℚ
  TOV : ℚ
  TPM : ℚ
  FGM_pg : ℚ
  FGA_pg : ℚ
  FTM_pg : ℚ
  FTA_pg : ℚ
  deriving DecidableEq

/-- The zero-initialised `totals` dict (core.py lines 337–349). -/
def Totals.zero : Totals := ⟨0, 0, 0, 0, 0, 0, 0, 0, 0, 0, 0⟩

/-- The loop body `totals[k] += float(avgs.get(k, 0.0))` over the 11 keys
(every key is present in a `Summary`). -/
def Totals.addSummary (t : Totals) (s : Summary) : Totals :=
  ⟨t.PTS + s.PTS, t.REB + s.REB, t.AST + s.AST, t.STL + s.STL, t.BLK + s.BLK,
    t.TOV + s.TOV, t.TPM + s.TPM, t.FGM_pg + s.FGM_pg, t.FGA_pg + s.FGA_pg,
    t.FTM_pg + s.FTM_pg, t.FTA_pg + s.FTA_pg⟩

/-- The output dict of team aggregation: `totals` minus the four `_pg` keys,
plus the two recomputed percentages. -/
structure TeamStats where
  PTS : ℚ
  REB : ℚ
  AST : ℚ
  STL : ℚ
  BLK : ℚ
  TOV : ℚ
  TPM : ℚ
  FGpct : ℚ
  FTpct : ℚ
  deriving DecidableEq

/-- Building the output dict from the totals (core.py lines 371–381):
attempt-weighted percentages, zero-guarded, `_pg` keys dropped. -/
def mkTeamStats (t : Totals) : TeamStats :=
  ⟨t.PTS, t.REB, t.AST, t.STL, t.BLK, t.TOV, t.TPM,
    if t.FGA_pg = 0 then 0 else t.FGM_pg / t.FGA_pg,
    if t.FTA_pg = 0 then 0 else t.FTM_pg / t.FTA_pg⟩

/-- One iteration of the `compute_team_stats` loop (core.py lines 350–370):
`try ... except: continue` skips a failing player entirely. -/
def teamStep (avg : Int → Except String Summary) (t : Totals)
    (pn : Int × String) : Totals :=
  match avg pn.1 with
  | Except.ok s => t.addSummary s
  | Except.error _ => t

/-- The per-player loop of `compute_team_stats` (core.py lines 350–370). -/
def teamTotals (avg : Int → Except String Summary)
    (roster : List (Int × String)) : Totals :=
  roster.foldl (teamStep avg) Totals.zero

/-- `compute_team_stats` (core.py lines 333–381). -/
def compute_team_stats (avg : Int → Except String Summary)
    (roster : List (Int × String)) : TeamStats :=
  mkTeamStats (teamTotals avg roster)

/-- One iteration of the `compute_team_stats_cached` loop
(streamlit_app.py lines 128–147): a skipped player appends a warning. -/
def cachedStep (avg : Int → Except String Summary)
    (acc : Totals × List String) (pn : Int × String) : Totals × List String :=
  match avg pn.1 with
  | Except.ok s => (acc.1.addSummary s, acc.2)
  | Except.error e =>
    (acc.1, acc.2 ++ ["Failed to fetch " ++ pn.2 ++ ": " ++ e])

/-- `compute_team_stats_cached` (streamlit_app.py lines 111–153): identical
aggregation, but each skipped player appends a warning string. -/
def compute_team_stats_cached (avg : Int → Except String Summary)
    (roster : List (Int × String)) : TeamStats × List String :=
  let acc := roster.foldl (cachedStep avg) (Totals.zero, [])
  (mkTeamStats acc.1, acc.2)

/-- The summaries of the roster players whose computation succeeded, in
roster order. -/
def okSummaries (avg : Int → Except String Summary)
    (roster : List (Int × String)) : List Summary :=
  roster.filterMap (fun pn => (avg pn.1).toOption)

/-- Per-field sums of a list of summaries. -/
def sumTotals (ss : List Summary) : Totals :=
  ⟨(ss.map (fun s => s.PTS)).sum, (ss.map (fun s => s.REB)).sum,
    (ss.map (fun s => s.AST)).sum, (ss.map (fun s => s.STL)).sum,
    (ss.map (fun s => s.BLK)).sum, (ss.map (fun s => s.TOV)).sum,
    (ss.map (fun s => s.TPM)).sum, (ss.map (fun s => s.FGM_pg)).sum,
    (ss.map (fun s => s.FGA_pg)).sum, (ss.map (fun s => s.FTM_pg)).sum,
    (ss.map (fun s => s.FTA_pg)).sum⟩

/-! ### Player search (`search_players`) -/

/-- A player record from the static name index, with the three fields the
code reads (`id`, `full_name`, `is_active`). -/
structure PlayerRec where
  id : Int
  full_name : String
  is_active : Bool
  deriving DecidableEq

/-- The de-duplication loop of `search_players` (core.py lines 320–326):
keep the first occurrence of each id, tracking seen ids. -/
def dedupeById : List PlayerRec → List Int → List PlayerRec
  | [], _ => []
  | r :: rest, seen =>
    if r.id ∈ seen then dedupeById rest seen
    else r :: dedupeById rest (r.id :: seen)

/-- The sort key `(not bool(r.get("is_active", False)), r.get("full_name", ""))`
compared as Python compares tuples: lexicographically, `False < True` for
bools and code-point order for strings. -/
def keyLe (a b : PlayerRec) : Prop :=
  (!a.is_active) < (!b.is_active) ∨
    ((!a.is_active) = (!b.is_active) ∧ a.full_name ≤ b.full_name)

instance (a b : PlayerRec) : Decidable (keyLe a b) := by
  unfold keyLe
  exact inferInstance

/-- Stable insertion into a key-sorted list (an element is placed before the
first strictly-later element; equal keys keep their relative order, matching
Python's stable `list.sort`). -/
def insertByKey (a : PlayerRec) : List PlayerRec → List PlayerRec
  | [] => [a]
  | b :: rest => if keyLe a b then a :: b :: rest else b :: insertByKey a rest

/-- Stable sort by `keyLe` (produces the same list as Python's stable
`list.sort(key=...)` with the same total preorder). -/
def sortByKey : List PlayerRec → List PlayerRec
  | [] => []
  | a :: rest => insertByKey a (sortByKey rest)

/-- `search_players` (core.py lines 316–330), as a function of the raw
provider result list. -/
def search_players (results : List PlayerRec) : List PlayerRec :=
  sortByKey (dedupeById results [])

/-! ### The Fetch & Compare handler (streamlit_app.py lines 227–256) -/

/-- One row of the comparison table. -/
structure CmpRow where
  category : String
  mine : ℚ
  opp : ℚ
  lead : String
  deriving DecidableEq

/-- `stats.get(c, 0.0)` on a team-stats dict (the dict holds exactly the
nine category keys). -/
def TeamStats.get (t : TeamStats) (c : String) : ℚ :=
  if c = "FG%" then t.FGpct
  else if c = "FT%" then t.FTpct
  else if c = "3PM" then t.TPM
  else if c = "PTS" then t.PTS
  else if c = "REB" then t.REB
  else if c = "AST" then t.AST
  else if c = "STL" then t.STL
  else if c = "BLK" then t.BLK
  else if c = "TOV" then t.TOV
  else 0

/-- The nine fantasy categories, in the order the handler iterates them. -/
def catsList : List String :=
  ["FG%", "FT%", "3PM", "PTS", "REB", "AST", "STL", "BLK", "TOV"]

/-- The per-category classification (streamlit_app.py lines 234–237):
turnovers lower-is-better, everything else higher-is-better. -/
def leadFor (c : String) (v1 v2 : ℚ) : String :=
  if c = "TOV" then
    if v1 < v2 then "My Team"
    else if v2 < v1 then "Team of the opponent"
    else "="
  else
    if v1 > v2 then "My Team"
    else if v2 > v1 then "Team of the opponent"
    else "="

/-- One iteration of the comparison loop (streamlit_app.py lines 231–247). -/
def compareStep (s1 s2 : TeamStats) (acc : List CmpRow × ℕ × ℕ)
    (c : String) : List CmpRow × ℕ × ℕ :=
  let v1 := s1.get c
  let v2 := s2.get c
  let lead := leadFor c v1 v2
  let wins :=
    if lead = "My Team" then (acc.2.1 + 1, acc.2.2)
    else if lead = "Team of the opponent" then (acc.2.1, acc.2.2 + 1)
    else (acc.2.1, acc.2.2)
  (acc.1 ++ [⟨c, v1, v2, lead⟩], wins.1, wins.2)

/-- The comparison loop (streamlit_app.py lines 228–247): builds the rows
and counts `my_wins` / `opp_wins`. -/
def compareLoop (s1 s2 : TeamStats) : List CmpRow × ℕ × ℕ :=
  catsList.foldl (compareStep s1 s2) ([], 0, 0)

/-- The final verdict (streamlit_app.py lines 251–256). -/
def verdictFor (myWins oppWins : ℕ) : String :=
  if myWins > oppWins then "Comrade, you would win this trade. Do it!"
  else if oppWins > myWins then
    "Comrade, the capitalists are trying to pull your leg. You lose this trade."
  else "Comrade, this trade is a tie and leads to peaceful co-existance."

/-! ### Helper lemmas -/

instance exceptDecEq {ε α : Type} [DecidableEq ε] [DecidableEq α] :
    DecidableEq (Except ε α) := fun x y =>
  match x, y with
  | Except.ok a, Except.ok b =>
    if h : a = b then isTrue (by rw [h])
    else isFalse (fun hc => h (Except.ok.inj hc))
  | Except.error a, Except.error b =>
    if h : a = b then isTrue (by rw [h])
    else isFalse (fun hc => h (Except.error.inj hc))
  | Except.ok _, Except.error _ => isFalse (fun hc => Except.noConfusion hc)
  | Except.error _, Except.ok _ => isFalse (fun hc => Except.noConfusion hc)

theorem sliceFirst_eq_take (games : List Row) (n : ℕ) :
    sliceFirst games n = games.take n := by
  unfold sliceFirst
  by_cases h : n ≤ games.length
  · simp [h]
  · simp [h, List.take_of_length_le (le_of_lt (lt_of_not_le h))]

theorem exceptBind_ok {α β : Type} (x : Except String α)
    (f : α → Except String β) (b : β) :
    (x >>= f) = Except.ok b ↔ ∃ a, x = Except.ok a ∧ f a = Except.ok b := by
  cases x <;> simp [Bind.bind, Except.bind]

theorem primaryAverages_ok_iff (games : List Row) (n : ℕ) (s : Summary) :
    primaryAverages games n = Except.ok s ↔
      ∃ fgm fga ftm fta pts reb ast stl blk tov threes,
        statSumRequired (sliceFirst games n) "FGM" = Except.ok fgm ∧
        statSumRequired (sliceFirst games n) "FGA" = Except.ok fga ∧
        statSumRequired (sliceFirst games n) "FTM" = Except.ok ftm ∧
        statSumRequired (sliceFirst games n) "FTA" = Except.ok fta ∧
        statSumRequired (sliceFirst games n) "PTS" = Except.ok pts ∧
        statSumRequired (sliceFirst games n) "REB" = Except.ok reb ∧
        statSumRequired (sliceFirst games n) "AST" = Except.ok ast ∧
        statSumRequired (sliceFirst games n) "STL" = Except.ok stl ∧
        statSumRequired (sliceFirst games n) "BLK" = Except.ok blk ∧
        statSumRequired (sliceFirst games n) "TOV" = Except.ok tov ∧
        statSumRequired (sliceFirst games n) "FG3M" = Except.ok threes ∧
        s = ⟨(sliceFirst games n).length,
          pts / (max 1 (sliceFirst games n).length : ℕ),
          reb / (max 1 (sliceFirst games n).length : ℕ),
          ast / (max 1 (sliceFirst games n).length : ℕ),
          stl / (max 1 (sliceFirst games n).length : ℕ),
          blk / (max 1 (sliceFirst games n).length : ℕ),
          tov / (max 1 (sliceFirst games n).length : ℕ),
          threes / (max 1 (sliceFirst games n).length : ℕ),
          fgm / (max 1 (sliceFirst games n).length : ℕ),
          fga / (max 1 (sliceFirst games n).length : ℕ),
          ftm / (max 1 (sliceFirst games n).length : ℕ),
          fta / (max 1 (sliceFirst games n).length : ℕ),
          if fga = 0 then 0 else fgm / fga,
          if fta = 0 then 0 else ftm / fta⟩ := by
  unfold primaryAverages
  simp only [exceptBind_ok, pure, Except.pure, Except.ok.injEq]
  constructor
  · rintro ⟨a1, h1, a2, h2, a3, h3, a4, h4, a5, h5, a6, h6, a7, h7, a8, h8,
      a9, h9, a10, h10, a11, h11, hs⟩
    exact ⟨a1, a2, a3, a4, a5, a6, a7, a8, a9, a10, a11,
      h1, h2, h3, h4, h5, h6, h7, h8, h9, h10, h11, hs.symm⟩
  · rintro ⟨a1, a2, a3, a4, a5, a6, a7, a8, a9, a10, a11,
      h1, h2, h3, h4, h5, h6, h7, h8, h9, h10, h11, hs⟩
    exact ⟨a1, h1, a2, h2, a3, h3, a4, h4, a5, h5, a6, h6, a7, h7, a8, h8,
      a9, h9, a10, h10, a11, h11, hs.symm⟩

theorem statSumRequired_nil (k : String) :
    statSumRequired [] k = Except.ok 0 := rfl

theorem primaryAverages_nil (n : ℕ) :
    primaryAverages [] n = Except.ok zeroSummary := by
  rw [primaryAverages_ok_iff]
  refine ⟨0, 0, 0, 0, 0, 0, 0, 0, 0, 0, 0, ?_⟩
  simp [sliceFirst, statSumRequired_nil, zeroSummary]

theorem bdlAverageRows_nil (n : ℕ) : bdlAverageRows [] n = zeroSummary := by
  unfold bdlAverageRows
  simp [sliceFirst]

theorem bdlAverageRows_games_used (games : List Row) (n : ℕ) :
    (bdlAverageRows games n).games_used = min n games.length := by
  unfold bdlAverageRows
  rw [sliceFirst_eq_take]
  by_cases h : games.take n = []
  · rw [List.take_eq_nil_iff] at h
    rcases h with h | h <;> simp [h, zeroSummary, List.take_nil]
  · simp only [h, if_neg, sliceFirst_eq_take]
    simp [h, List.length_take]

theorem bdlAverageRows_take (games : List Row) (n : ℕ) :
    bdlAverageRows games n = bdlAverageRows (games.take n) n := by
  unfold bdlAverageRows
  rw [sliceFirst_eq_take, sliceFirst_eq_take, List.take_take, min_self]

theorem primaryAverages_take (games : List Row) (n : ℕ) :
    primaryAverages games n = primaryAverages (games.take n) n := by
  unfold primaryAverages
  rw [sliceFirst_eq_take, sliceFirst_eq_take, List.take_take, min_self]

/-! ### C1 -/

/-- C1: both averagers operate on the first `min(W, L)` rows (the prefix of
the given order — no sorting), report `games_used = min(W, L)`, and on an
empty row sequence return the all-zero summary (all per-game and both
percentage fields `0.0`) instead of failing. -/
theorem C1_window_selection :
    ∀ (games : List Row) (n : ℕ),
      (bdlAverageRows games n).games_used = min n games.length
      ∧ bdlAverageRows games n = bdlAverageRows (games.take n) n
      ∧ (∀ s, primaryAverages games n = Except.ok s →
          s.games_used = min n games.length)
      ∧ primaryAverages games n = primaryAverages (games.take n) n
      ∧ bdlAverageRows [] n = zeroSummary
      ∧ primaryAverages [] n = Except.ok zeroSummary := by
  intro games n
  refine ⟨bdlAverageRows_games_used games n, bdlAverageRows_take games n,
    ?_, primaryAverages_take games n, bdlAverageRows_nil n,
    primaryAverages_nil n⟩
  intro s hs
  rw [primaryAverages_ok_iff] at hs
  obtain ⟨_, _, _, _, _, _, _, _, _, _, _,
    _, _, _, _, _, _, _, _, _, _, _, hs⟩ := hs
  rw [hs]
  simp [sliceFirst_eq_take, List.length_take]

/-- A concrete game row carrying all fields the primary averager requires. -/
def demoRow : Row :=
  [("FGM", 5), ("FGA", 10), ("FTM", 2), ("FTA", 2), ("PTS", 12), ("REB", 3),
    ("AST", 4), ("STL", 1), ("BLK", 0), ("TOV", 2), ("FG3M", 0)]

theorem statSumRequired_single (g : Row) (k : String) (v : ℚ)
    (h : rowGet g k = some v) : statSumRequired [g] k = Except.ok v := by
  simp [statSumRequired, getReq, h]

/-- Witness for C1 at a concrete input: a two-row log with window 1. -/
theorem C1_window_selection_witness :
    ∃ s, primaryAverages [demoRow, demoRow] 1 = Except.ok s ∧
      s.games_used = min 1 2 := by
  have hs : sliceFirst [demoRow, demoRow] 1 = [demoRow] := by decide
  have h : primaryAverages [demoRow, demoRow] 1 =
      Except.ok ⟨1, 12, 3, 4, 1, 0, 2, 0, 5, 10, 2, 2, 1/2, 1⟩ := by
    rw [primaryAverages_ok_iff]
    refine ⟨5, 10, 2, 2, 12, 3, 4, 1, 0, 2, 0, ?_, ?_, ?_, ?_, ?_, ?_,
      ?_, ?_, ?_, ?_, ?_, ?_⟩ <;> rw [hs]
    · exact statSumRequired_single _ _ _ (by decide)
    · exact statSumRequired_single _ _ _ (by decide)
    · exact statSumRequired_single _ _ _ (by decide)
    · exact statSumRequired_single _ _ _ (by decide)
    · exact statSumRequired_single _ _ _ (by decide)
    · exact statSumRequired_single _ _ _ (by decide)
    · exact statSumRequired_single _ _ _ (by decide)
    · exact statSumRequired_single _ _ _ (by decide)
    · exact statSumRequired_single _ _ _ (by decide)
    · exact statSumRequired_single _ _ _ (by decide)
    · exact statSumRequired_single _ _ _ (by decide)
    · norm_num [Summary.mk.injEq]
  exact ⟨_, h, (C1_window_selection [demoRow, demoRow] 1).2.2.1 _ h⟩

/-! ### C5 -/

/-- C5: on any primary failure `_last_n_averages_by_id` falls back to the
secondary provider exactly when a display name was supplied — without a name
the original error propagates unchanged, with a name the result is exactly
the fallback's own result — and a primary success is returned as-is. -/
theorem C5_fallback_dispatch :
    ∀ (primaryResp : Except String GLResponse) (n : ℕ) (bdlPid : Option Int)
      (season : String) (bdlFetched : Except String (List Row)),
      (∀ e, primaryPipeline primaryResp n = Except.error e →
        lastNAveragesById primaryResp n none bdlPid season bdlFetched =
          Except.error e)
      ∧ (∀ e nm, primaryPipeline primaryResp n = Except.error e →
          lastNAveragesById primaryResp n (some nm) bdlPid season bdlFetched =
            bdlLastNAverages bdlPid season bdlFetched n nm)
      ∧ (∀ s fn, primaryPipeline primaryResp n = Except.ok s →
          lastNAveragesById primaryResp n fn bdlPid season bdlFetched =
            Except.ok s) := by
  intro primaryResp n bdlPid season bdlFetched
  refine ⟨?_, ?_, ?_⟩
  · intro e he
    unfold lastNAveragesById
    rw [he]
  · intro e nm he
    unfold lastNAveragesById
    rw [he]
  · intro s fn hs
    unfold lastNAveragesById
    rw [hs]

/-- Witness for C5: a concrete transport failure with a name supplied is
answered exactly by the fallback. -/
theorem C5_fallback_dispatch_witness :
    lastNAveragesById (Except.error "timeout") 5 (some "LeBron James")
        (some 1) "2024" (Except.ok []) =
      bdlLastNAverages (some 1) "2024" (Except.ok []) 5 "LeBron James" :=
  (C5_fallback_dispatch (Except.error "timeout") 5 (some 1) "2024"
    (Except.ok [])).2.1 "timeout" "LeBron James" rfl

/-! ### C7 -/

/-- Pointwise addition of totals. -/
def Totals.add (t u : Totals) : Totals :=
  ⟨t.PTS + u.PTS, t.REB + u.REB, t.AST + u.AST, t.STL + u.STL, t.BLK + u.BLK,
    t.TOV + u.TOV, t.TPM + u.TPM, t.FGM_pg + u.FGM_pg, t.FGA_pg + u.FGA_pg,
    t.FTM_pg + u.FTM_pg, t.FTA_pg + u.FTA_pg⟩

theorem addSummary_add_sum (t : Totals) (s : Summary) (l : List Summary) :
    (t.addSummary s).add (sumTotals l) = t.add (sumTotals (s :: l)) := by
  simp only [Totals.add, Totals.addSummary, sumTotals, List.map_cons,
    List.sum_cons, Totals.mk.injEq]
  refine ⟨?_, ?_, ?_, ?_, ?_, ?_, ?_, ?_, ?_, ?_, ?_⟩ <;> ring

theorem foldl_teamStep (avg : Int → Except String Summary) :
    ∀ (roster : List (Int × String)) (t0 : Totals),
      roster.foldl (teamStep avg) t0 =
        t0.add (sumTotals (okSummaries avg roster)) := by
  intro roster
  induction roster with
  | nil =>
    intro t0
    simp [okSummaries, sumTotals, Totals.add]
  | cons pn rest ih =>
    intro t0
    rw [List.foldl_cons]
    cases h : avg pn.1 with
    | ok s =>
      have hstep : teamStep avg t0 pn = t0.addSummary s := by
        unfold teamStep
        rw [h]
      rw [hstep, ih, addSummary_add_sum]
      simp [okSummaries, List.filterMap_cons, h, Except.toOption]
    | error e =>
      have hstep : teamStep avg t0 pn = t0 := by
        unfold teamStep
        rw [h]
      rw [hstep, ih]
      simp [okSummaries, List.filterMap_cons, h, Except.toOption]

theorem zero_add_totals (u : Totals) : Totals.zero.add u = u := by
  simp [Totals.add, Totals.zero]

theorem teamTotals_eq (avg : Int → Except String Summary)
    (roster : List (Int × String)) :
    teamTotals avg roster = sumTotals (okSummaries avg roster) := by
  unfold teamTotals
  rw [foldl_teamStep, zero_add_totals]

theorem cached_fst_eq (avg : Int → Except String Summary) :
    ∀ (roster : List (Int × String)) (t0 : Totals) (w0 : List String),
      (roster.foldl (cachedStep avg) (t0, w0)).1 =
        roster.foldl (teamStep avg) t0 := by
  intro roster
  induction roster with
  | nil => intro t0 w0; rfl
  | cons pn rest ih =>
    intro t0 w0
    rw [List.foldl_cons, List.foldl_cons]
    cases h : avg pn.1 with
    | ok s =>
      have h1 : cachedStep avg (t0, w0) pn = (t0.addSummary s, w0) := by
        unfold cachedStep
        rw [h]
      have h2 : teamStep avg t0 pn = t0.addSummary s := by
        unfold teamStep
        rw [h]
      rw [h1, h2, ih]
    | error e =>
      have h1 : cachedStep avg (t0, w0) pn =
          (t0, w0 ++ ["Failed to fetch " ++ pn.2 ++ ": " ++ e]) := by
        unfold cachedStep
        rw [h]
      have h2 : teamStep avg t0 pn = t0 := by
        unfold teamStep
        rw [h]
      rw [h1, h2, ih]

/-- C7: team aggregation never fails; every per-player failure is swallowed
and the totals are exactly the per-field sums over the players whose average
computation succeeded — in both `compute_team_stats` and the Streamlit
`compute_team_stats_cached`. -/
theorem C7_team_aggregation_skips_failures :
    ∀ (avg : Int → Except String Summary) (roster : List (Int × String)),
      compute_team_stats avg roster =
        mkTeamStats (sumTotals (okSummaries avg roster))
      ∧ (compute_team_stats_cached avg roster).1 = compute_team_stats avg roster := by
  intro avg roster
  constructor
  · unfold compute_team_stats
    rw [teamTotals_eq]
  · unfold compute_team_stats_cached compute_team_stats teamTotals
    simp only
    rw [cached_fst_eq]

/-! ### C2 -/

/-- Explicit shape of `bdlAverageRows` on a nonempty window. -/
theorem bdlAverageRows_spec (games : List Row) (n : ℕ)
    (h : sliceFirst games n ≠ []) :
    bdlAverageRows games n =
      ⟨(sliceFirst games n).length,
        statSum (sliceFirst games n) "pts" / (max 1 (sliceFirst games n).length : ℕ),
        statSum (sliceFirst games n) "reb" / (max 1 (sliceFirst games n).length : ℕ),
        statSum (sliceFirst games n) "ast" / (max 1 (sliceFirst games n).length : ℕ),
        statSum (sliceFirst games n) "stl" / (max 1 (sliceFirst games n).length : ℕ),
        statSum (sliceFirst games n) "blk" / (max 1 (sliceFirst games n).length : ℕ),
        statSum (sliceFirst games n) "turnover" / (max 1 (sliceFirst games n).length : ℕ),
        statSum (sliceFirst games n) "fg3m" / (max 1 (sliceFirst games n).length : ℕ),
        statSum (sliceFirst games n) "fgm" / (max 1 (sliceFirst games n).length : ℕ),
        statSum (sliceFirst games n) "fga" / (max 1 (sliceFirst games n).length : ℕ),
        statSum (sliceFirst games n) "ftm" / (max 1 (sliceFirst games n).length : ℕ),
        statSum (sliceFirst games n) "fta" / (max 1 (sliceFirst games n).length : ℕ),
        if statSum (sliceFirst games n) "fga" = 0 then 0
          else statSum (sliceFirst games n) "fgm" / statSum (sliceFirst games n) "fga",
        if statSum (sliceFirst games n) "fta" = 0 then 0
          else statSum (sliceFirst games n) "ftm" / statSum (sliceFirst games n) "fta"⟩ := by
  unfold bdlAverageRows
  simp [h]

/-- The averaging denominator `max(1, len(recent))` is never zero in ℚ. -/
theorem gamesCount_ne_zero (m : ℕ) : ((max 1 m : ℕ) : ℚ) ≠ 0 := by
  have : 0 < max 1 m := lt_of_lt_of_le Nat.zero_lt_one (le_max_left 1 m)
  exact_mod_cast Nat.pos_iff_ne_zero.mp this

theorem statSum_pair_le (rows : List Row) (km ka : String)
    (h : ∀ g ∈ rows, 0 ≤ rowGetD g km ∧ rowGetD g km ≤ rowGetD g ka) :
    0 ≤ statSum rows km ∧ statSum rows km ≤ statSum rows ka := by
  constructor
  · refine List.sum_nonneg ?_
    intro x hx
    obtain ⟨g, hg, rfl⟩ := List.mem_map.1 hx
    exact (h g hg).1
  · refine List.sum_le_sum ?_
    intro g hg
    exact (h g hg).2

/-- The zero-guarded ratio of a pair `0 ≤ m ≤ a` lies in `[0, 1]`. -/
theorem guarded_div_bounds {m a : ℚ} (h0 : 0 ≤ m) (hle : m ≤ a) :
    0 ≤ (if a = 0 then 0 else m / a) ∧ (if a = 0 then 0 else m / a) ≤ 1 := by
  by_cases ha : a = 0
  · simp [ha]
  · have hapos : 0 < a := lt_of_le_of_ne (le_trans h0 hle) (Ne.symm ha)
    rw [if_neg ha]
    exact ⟨div_nonneg h0 (le_of_lt hapos), (div_le_one hapos).mpr hle⟩

/-- Validity of a required makes/attempts pair in a row: whatever values are
present satisfy `0 ≤ makes ≤ attempts`. -/
def reqValid (g : Row) (km ka : String) : Prop :=
  ∀ m a, rowGet g km = some m → rowGet g ka = some a → 0 ≤ m ∧ m ≤ a

theorem statSumRequired_pair_le :
    ∀ (rows : List Row) (km ka : String) (m a : ℚ),
      (∀ g ∈ rows, reqValid g km ka) →
      statSumRequired rows km = Except.ok m →
      statSumRequired rows ka = Except.ok a → 0 ≤ m ∧ m ≤ a := by
  intro rows
  induction rows with
  | nil =>
    intro km ka m a _ hm ha
    simp only [statSumRequired, Except.ok.injEq] at hm ha
    simp [← hm, ← ha]
  | cons g rest ih =>
    intro km ka m a hv hm ha
    cases hrm : rowGet g km with
    | none => simp [statSumRequired, getReq, hrm] at hm
    | some vm =>
      cases hsm : statSumRequired rest km with
      | error e => simp [statSumRequired, getReq, hrm, hsm] at hm
      | ok sm =>
        cases hra : rowGet g ka with
        | none => simp [statSumRequired, getReq, hra] at ha
        | some va =>
          cases hsa : statSumRequired rest ka with
          | error e => simp [statSumRequired, getReq, hra, hsa] at ha
          | ok sa =>
            simp only [statSumRequired, getReq, hrm, hsm, hra, hsa,
              Except.ok.injEq] at hm ha
            have hg := hv g (List.mem_cons_self g rest) vm va hrm hra
            have hr := ih km ka sm sa
              (fun g' hg' => hv g' (List.mem_cons_of_mem g hg')) hsm hsa
            constructor
            · rw [← hm]
              exact add_nonneg hg.1 hr.1
            · rw [← hm, ← ha]
              exact add_le_add hg.2 hr.2

/-- C2 (amended): percentages are `0.0` whenever the corresponding summed
attempts are `0` regardless of makes, the guarded division is total, and the
percentages lie in `[0, 1]` provided every contributing row (respectively
summary) has `0 ≤ makes ≤ attempts` — in both averagers and in team
aggregation. -/
theorem C2_percentage_safety :
    (∀ (games : List Row) (n : ℕ),
        ((bdlAverageRows games n).FGA_pg = 0 → (bdlAverageRows games n).FGpct = 0)
        ∧ ((bdlAverageRows games n).FTA_pg = 0 → (bdlAverageRows games n).FTpct = 0))
    ∧ (∀ (games : List Row) (n : ℕ) (s : Summary),
        primaryAverages games n = Except.ok s →
          (s.FGA_pg = 0 → s.FGpct = 0) ∧ (s.FTA_pg = 0 → s.FTpct = 0))
    ∧ (∀ (avg : Int → Except String Summary) (roster : List (Int × String)),
        ((sumTotals (okSummaries avg roster)).FGA_pg = 0 →
          (compute_team_stats avg roster).FGpct = 0)
        ∧ ((sumTotals (okSummaries avg roster)).FTA_pg = 0 →
          (compute_team_stats avg roster).FTpct = 0))
    ∧ (∀ (games : List Row) (n : ℕ),
        (∀ g ∈ sliceFirst games n,
            0 ≤ rowGetD g "fgm" ∧ rowGetD g "fgm" ≤ rowGetD g "fga") →
          0 ≤ (bdlAverageRows games n).FGpct ∧ (bdlAverageRows games n).FGpct ≤ 1)
    ∧ (∀ (games : List Row) (n : ℕ),
        (∀ g ∈ sliceFirst games n,
            0 ≤ rowGetD g "ftm" ∧ rowGetD g "ftm" ≤ rowGetD g "fta") →
          0 ≤ (bdlAverageRows games n).FTpct ∧ (bdlAverageRows games n).FTpct ≤ 1)
    ∧ (∀ (games : List Row) (n : ℕ) (s : Summary),
        primaryAverages games n = Except.ok s →
          (∀ g ∈ sliceFirst games n, reqValid g "FGM" "FGA") →
            0 ≤ s.FGpct ∧ s.FGpct ≤ 1)
    ∧ (∀ (games : List Row) (n : ℕ) (s : Summary),
        primaryAverages games n = Except.ok s →
          (∀ g ∈ sliceFirst games n, reqValid g "FTM" "FTA") →
            0 ≤ s.FTpct ∧ s.FTpct ≤ 1)
    ∧ (∀ (avg : Int → Except String Summary) (roster : List (Int × String)),
        (∀ s ∈ okSummaries avg roster, 0 ≤ s.FGM_pg ∧ s.FGM_pg ≤ s.FGA_pg) →
          0 ≤ (compute_team_stats avg roster).FGpct ∧
            (compute_team_stats avg roster).FGpct ≤ 1)
    ∧ (∀ (avg : Int → Except String Summary) (roster : List (Int × String)),
        (∀ s ∈ okSummaries avg roster, 0 ≤ s.FTM_pg ∧ s.FTM_pg ≤ s.FTA_pg) →
          0 ≤ (compute_team_stats avg roster).FTpct ∧
            (compute_team_stats avg roster).FTpct ≤ 1) := by
  have hteam : ∀ (avg : Int → Except String Summary) (roster : List (Int × String)),
      compute_team_stats avg roster = mkTeamStats (sumTotals (okSummaries avg roster)) := by
    intro avg roster
    unfold compute_team_stats
    rw [teamTotals_eq]
  refine ⟨?_, ?_, ?_, ?_, ?_, ?_, ?_, ?_, ?_⟩
  · intro games n
    by_cases h : sliceFirst games n = []
    · unfold bdlAverageRows
      simp [h, zeroSummary]
    · rw [bdlAverageRows_spec games n h]
      constructor
      · intro h0
        rcases div_eq_zero_iff.mp h0 with h0 | h0
        · simp [h0]
        · exact absurd h0 (gamesCount_ne_zero _)
      · intro h0
        rcases div_eq_zero_iff.mp h0 with h0 | h0
        · simp [h0]
        · exact absurd h0 (gamesCount_ne_zero _)
  · intro games n s hs
    rw [primaryAverages_ok_iff] at hs
    obtain ⟨fgm, fga, ftm, fta, pts, reb, ast, stl, blk, tov, threes,
      _, _, _, _, _, _, _, _, _, _, _, rfl⟩ := hs
    constructor
    · intro h0
      rcases div_eq_zero_iff.mp h0 with h0 | h0
      · simp [h0]
      · exact absurd h0 (gamesCount_ne_zero _)
    · intro h0
      rcases div_eq_zero_iff.mp h0 with h0 | h0
      · simp [h0]
      · exact absurd h0 (gamesCount_ne_zero _)
  · intro avg roster
    rw [hteam]
    constructor
    · intro h0
      simp [mkTeamStats, h0]
    · intro h0
      simp [mkTeamStats, h0]
  · intro games n hv
    by_cases h : sliceFirst games n = []
    · unfold bdlAverageRows
      simp [h, zeroSummary]
    · rw [bdlAverageRows_spec games n h]
      have := statSum_pair_le (sliceFirst games n) "fgm" "fga" hv
      exact guarded_div_bounds this.1 this.2
  · intro games n hv
    by_cases h : sliceFirst games n = []
    · unfold bdlAverageRows
      simp [h, zeroSummary]
    · rw [bdlAverageRows_spec games n h]
      have := statSum_pair_le (sliceFirst games n) "ftm" "fta" hv
      exact guarded_div_bounds this.1 this.2
  · intro games n s hs hv
    rw [primaryAverages_ok_iff] at hs
    obtain ⟨fgm, fga, ftm, fta, pts, reb, ast, stl, blk, tov, threes,
      hfgm, hfga, _, _, _, _, _, _, _, _, _, rfl⟩ := hs
    have := statSumRequired_pair_le (sliceFirst games n) "FGM" "FGA"
      fgm fga hv hfgm hfga
    exact guarded_div_bounds this.1 this.2
  · intro games n s hs hv
    rw [primaryAverages_ok_iff] at hs
    obtain ⟨fgm, fga, ftm, fta, pts, reb, ast, stl, blk, tov, threes,
      _, _, hftm, hfta, _, _, _, _, _, _, _, rfl⟩ := hs
    have := statSumRequired_pair_le (sliceFirst games n) "FTM" "FTA"
      ftm fta hv hftm hfta
    exact guarded_div_bounds this.1 this.2
  · intro avg roster hv
    rw [hteam]
    have h0 : 0 ≤ ((okSummaries avg roster).map (fun s => s.FGM_pg)).sum := by
      refine List.sum_nonneg ?_
      intro x hx
      obtain ⟨s, hsm, rfl⟩ := List.mem_map.1 hx
      exact (hv s hsm).1
    have hle : ((okSummaries avg roster).map (fun s => s.FGM_pg)).sum ≤
        ((okSummaries avg roster).map (fun s => s.FGA_pg)).sum := by
      refine List.sum_le_sum ?_
      intro s hsm
      exact (hv s hsm).2
    exact guarded_div_bounds h0 hle
  · intro avg roster hv
    rw [hteam]
    have h0 : 0 ≤ ((okSummaries avg roster).map (fun s => s.FTM_pg)).sum := by
      refine List.sum_nonneg ?_
      intro x hx
      obtain ⟨s, hsm, rfl⟩ := List.mem_map.1 hx
      exact (hv s hsm).1
    have hle : ((okSummaries avg roster).map (fun s => s.FTM_pg)).sum ≤
        ((okSummaries avg roster).map (fun s => s.FTA_pg)).sum := by
      refine List.sum_le_sum ?_
      intro s hsm
      exact (hv s hsm).2
    exact guarded_div_bounds h0 hle

/-- Counterexample to C2 as stated: with a (corrupt) row claiming 2 makes on
1 attempt, the fallback averager reports `FG% = 2.0`, outside `[0, 1]` —
the code never clamps, so the bound claimed for *every* selection of game
rows fails. -/
theorem C2_counterexample :
    ¬ ((bdlAverageRows [[("fgm", 2), ("fga", 1)]] 1).FGpct ≤ 1) := by
  have h : sliceFirst [[("fgm", (2:ℚ)), ("fga", 1)]] 1 ≠ [] := by decide
  rw [bdlAverageRows_spec _ _ h]
  have h1 : statSum (sliceFirst [[("fgm", (2:ℚ)), ("fga", 1)]] 1) "fga" = 1 := by
    have : rowGetD [("fgm", (2:ℚ)), ("fga", 1)] "fga" = 1 := by decide
    simp [statSum, sliceFirst, this]
  have h2 : statSum (sliceFirst [[("fgm", (2:ℚ)), ("fga", 1)]] 1) "fgm" = 2 := by
    have : rowGetD [("fgm", (2:ℚ)), ("fga", 1)] "fgm" = 2 := by decide
    simp [statSum, sliceFirst, this]
  simp only [h1, h2]
  norm_num

/-- Witness for C2 at a concrete valid input: one row with 1 make on 2
attempts gives an `FG%` inside `[0, 1]`. -/
theorem C2_percentage_safety_witness :
    0 ≤ (bdlAverageRows [[("fgm", 1), ("fga", 2)]] 1).FGpct ∧
      (bdlAverageRows [[("fgm", 1), ("fga", 2)]] 1).FGpct ≤ 1 := by
  refine C2_percentage_safety.2.2.2.1 [[("fgm", 1), ("fga", 2)]] 1 ?_
  intro g hg
  have hge : g = [("fgm", (1:ℚ)), ("fga", 2)] := by
    simpa [sliceFirst] using hg
  rw [hge]
  constructor <;> decide

/-! ### C3 -/

/-- A 50% shooter on low volume (1-for-2 per game). -/
def demoS1 : Summary := ⟨1, 0, 0, 0, 0, 0, 0, 0, 1, 2, 0, 0, 1/2, 0⟩

/-- A 90% shooter on high volume (9-for-10 per game). -/
def demoS2 : Summary := ⟨1, 0, 0, 0, 0, 0, 0, 0, 9, 10, 0, 0, 9/10, 0⟩

/-- A per-player outcome map serving the two demo summaries. -/
def demoAvg : Int → Except String Summary :=
  fun pid => if pid = 1 then Except.ok demoS1 else Except.ok demoS2

/-- C3: team `FG%` (and `FT%`) equals pooled per-game makes divided by
pooled per-game attempts over the successfully fetched players (zero-guarded
to `0.0`), and on a concrete roster this differs from the arithmetic mean of
the individual percentages. -/
theorem C3_team_weighted_percentages :
    (∀ (avg : Int → Except String Summary) (roster : List (Int × String)),
      (compute_team_stats avg roster).FGpct =
        (if ((okSummaries avg roster).map (fun s => s.FGA_pg)).sum = 0 then 0
         else ((okSummaries avg roster).map (fun s => s.FGM_pg)).sum /
           ((okSummaries avg roster).map (fun s => s.FGA_pg)).sum)
      ∧ (compute_team_stats avg roster).FTpct =
        (if ((okSummaries avg roster).map (fun s => s.FTA_pg)).sum = 0 then 0
         else ((okSummaries avg roster).map (fun s => s.FTM_pg)).sum /
           ((okSummaries avg roster).map (fun s => s.FTA_pg)).sum))
    ∧ (compute_team_stats demoAvg [(1, "a"), (2, "b")]).FGpct ≠
        (demoS1.FGpct + demoS2.FGpct) / 2 := by
  have key : ∀ (avg : Int → Except String Summary) (roster : List (Int × String)),
      (compute_team_stats avg roster).FGpct =
        (if ((okSummaries avg roster).map (fun s => s.FGA_pg)).sum = 0 then 0
         else ((okSummaries avg roster).map (fun s => s.FGM_pg)).sum /
           ((okSummaries avg roster).map (fun s => s.FGA_pg)).sum)
      ∧ (compute_team_stats avg roster).FTpct =
        (if ((okSummaries avg roster).map (fun s => s.FTA_pg)).sum = 0 then 0
         else ((okSummaries avg roster).map (fun s => s.FTM_pg)).sum /
           ((okSummaries avg roster).map (fun s => s.FTA_pg)).sum) := by
    intro avg roster
    have h : compute_team_stats avg roster =
        mkTeamStats (sumTotals (okSummaries avg roster)) := by
      unfold compute_team_stats
      rw [teamTotals_eq]
    rw [h]
    exact ⟨rfl, rfl⟩
  refine ⟨key, ?_⟩
  have hok : okSummaries demoAvg [(1, "a"), (2, "b")] = [demoS1, demoS2] := rfl
  rw [(key demoAvg [(1, "a"), (2, "b")]).1, hok]
  norm_num [demoS1, demoS2]

/-! ### C10 -/

/-- The eleven fields the primary averager reads with `g[k]`. -/
def primaryKeys : List String :=
  ["FGM", "FGA", "FTM", "FTA", "PTS", "REB", "AST", "STL", "BLK", "TOV", "FG3M"]

theorem statSumRequired_mem_isSome :
    ∀ (rows : List Row) (k : String) (v : ℚ),
      statSumRequired rows k = Except.ok v →
      ∀ g ∈ rows, (rowGet g k).isSome := by
  intro rows
  induction rows with
  | nil =>
    intro k v _ g hg
    simp at hg
  | cons g rest ih =>
    intro k v h g' hg'
    cases hr : rowGet g k with
    | none => simp [statSumRequired, getReq, hr] at h
    | some w =>
      cases hs : statSumRequired rest k with
      | error e => simp [statSumRequired, getReq, hr, hs] at h
      | ok s' =>
        rcases List.mem_cons.1 hg' with rfl | hg'
        · simp [hr]
        · exact ih k s' hs g' hg'

theorem statSumRequired_error_of_missing :
    ∀ (rows : List Row) (k : String),
      (∃ g ∈ rows, rowGet g k = none) →
      ∃ e, statSumRequired rows k = Except.error e := by
  intro rows
  induction rows with
  | nil =>
    intro k h
    simp at h
  | cons g rest ih =>
    intro k h
    cases hr : rowGet g k with
    | none => exact ⟨"KeyError: " ++ k, by simp [statSumRequired, getReq, hr]⟩
    | some w =>
      obtain ⟨g', hg', hnone⟩ := h
      rcases List.mem_cons.1 hg' with rfl | hg'
      · rw [hr] at hnone
        exact absurd hnone (by simp)
      · obtain ⟨e, he⟩ := ih k ⟨g', hg', hnone⟩
        exact ⟨e, by simp [statSumRequired, getReq, hr, he]⟩

theorem primaryAverages_error_of_first (games : List Row) (n : ℕ) (e : String)
    (h : statSumRequired (sliceFirst games n) "FGM" = Except.error e) :
    primaryAverages games n = Except.error e := by
  unfold primaryAverages
  simp [h, Bind.bind, Except.bind]

/-- C10: the two averaging paths treat missing stat fields asymmetrically —
the fallback's `g.get(k, 0)` makes a missing field contribute `0` and the
computation always succeeds, whereas the primary's `g[k]` makes any selected
row lacking a required field fail the whole primary computation, which then
falls back when a name is available and propagates the error otherwise. -/
theorem C10_missing_field_asymmetry :
    (∀ (g : Row) (rows : List Row) (k : String), rowGet g k = none →
        statSum (g :: rows) k = statSum rows k)
    ∧ (∀ (pid : Int) (season : String) (fetchedRows : List Row) (n : ℕ)
          (nm : String), pid ≠ 0 →
        (∃ y, _season_start_year season = some y) →
        bdlLastNAverages (some pid) season (Except.ok fetchedRows) n nm =
          Except.ok (bdlAverageRows fetchedRows n))
    ∧ (∀ (games : List Row) (n : ℕ) (s : Summary),
        primaryAverages games n = Except.ok s →
        ∀ g ∈ sliceFirst games n, ∀ k ∈ primaryKeys, (rowGet g k).isSome)
    ∧ (∀ (games : List Row) (n : ℕ),
        (∃ g ∈ sliceFirst games n, rowGet g "FGM" = none) →
        ∃ e, primaryAverages games n = Except.error e)
    ∧ (∀ (primaryResp : Except String GLResponse) (n : ℕ) (bdlPid : Option Int)
          (season : String) (bdlFetched : Except String (List Row))
          (e : String) (nm : String),
        primaryPipeline primaryResp n = Except.error e →
          lastNAveragesById primaryResp n (some nm) bdlPid season bdlFetched =
            bdlLastNAverages bdlPid season bdlFetched n nm
          ∧ lastNAveragesById primaryResp n none bdlPid season bdlFetched =
            Except.error e) := by
  refine ⟨?_, ?_, ?_, ?_, ?_⟩
  · intro g rows k h
    simp [statSum, rowGetD, h]
  · intro pid season fetchedRows n nm hpid ⟨y, hy⟩
    unfold bdlLastNAverages
    rw [hy]
    simp [hpid]
  · intro games n s hs g hg k hk
    rw [primaryAverages_ok_iff] at hs
    obtain ⟨fgm, fga, ftm, fta, pts, reb, ast, stl, blk, tov, threes,
      h1, h2, h3, h4, h5, h6, h7, h8, h9, h10, h11, _⟩ := hs
    fin_cases hk
    · exact statSumRequired_mem_isSome _ _ _ h1 g hg
    · exact statSumRequired_mem_isSome _ _ _ h2 g hg
    · exact statSumRequired_mem_isSome _ _ _ h3 g hg
    · exact statSumRequired_mem_isSome _ _ _ h4 g hg
    · exact statSumRequired_mem_isSome _ _ _ h5 g hg
    · exact statSumRequired_mem_isSome _ _ _ h6 g hg
    · exact statSumRequired_mem_isSome _ _ _ h7 g hg
    · exact statSumRequired_mem_isSome _ _ _ h8 g hg
    · exact statSumRequired_mem_isSome _ _ _ h9 g hg
    · exact statSumRequired_mem_isSome _ _ _ h10 g hg
    · exact statSumRequired_mem_isSome _ _ _ h11 g hg
  · intro games n hex
    obtain ⟨e, he⟩ := statSumRequired_error_of_missing (sliceFirst games n) "FGM" hex
    exact ⟨e, primaryAverages_error_of_first games n e he⟩
  · intro primaryResp n bdlPid season bdlFetched e nm he
    constructor
    · unfold lastNAveragesById
      rw [he]
    · unfold lastNAveragesById
      rw [he]

/-- Witness for C10: a concrete fallback success with valid pid and season. -/
theorem C10_missing_field_asymmetry_witness :
    bdlLastNAverages (some 1) "2024" (Except.ok []) 3 "X" =
      Except.ok (bdlAverageRows [] 3) :=
  C10_missing_field_asymmetry.2.1 1 "2024" [] 3 "X" (by norm_num)
    ⟨2024, by decide⟩

/-! ### C6 -/

/-- A response whose normalized dict holds an *empty* "PlayerGameLog" list
while the raw envelope carries a nonempty `headers`/`rowSet` table. -/
def emptyNormalizedResp : GLResponse :=
  ⟨NDShape.listVal [],
    Except.ok ⟨some (RSVal.pylist [RSElem.obj ⟨true, ["FGM"], [[2]]⟩]), none⟩,
    Except.error "request failed"⟩

/-- Counterexample to C6 as stated: shape (1) already returns with an empty
row list, so extraction yields `[]` instead of moving on to shape (2), whose
rows are nonempty and available.  The claimed "moves on until a shape yields
non-empty rows" behaviour would have returned those rows. -/
theorem C6_counterexample :
    _extract_gamelog_rows emptyNormalizedResp = Except.ok [] ∧
      tryRaw emptyNormalizedResp = some [[("FGM", (2:ℚ))]] := by
  constructor
  · rfl
  · rfl

/-- C6 (amended): extraction is the ordered three-strategy chain, each
strategy attempted until one *structurally succeeds* (not until rows are
non-empty): shape (1) succeeds whenever the normalized mapping holds a list
under "PlayerGameLog" — even an empty one; shape (2) yields rows only when
both `headers` and `rowSet` are nonempty (container being a list, first
element used, or a single object); shape (3) succeeds whenever at least one
frame exists (even with zero records); the parse error is raised exactly
when all three fall through. -/
theorem C6_extraction_strategy_order :
    ∀ gl : GLResponse,
      (_extract_gamelog_rows gl =
        match firstSuccess [tryNormalized gl, tryRaw gl, tryFrames gl] with
        | some rows => Except.ok rows
        | none => Except.error unparsableMsg)
      ∧ (∀ rows, tryNormalized gl = some rows ↔ gl.nd = NDShape.listVal rows)
      ∧ (∀ rows, tryRaw gl = some rows → rows ≠ [])
      ∧ (∀ rows, tryFrames gl = some rows ↔
          ∃ rest, gl.frames = Except.ok (rows :: rest)) := by
  intro gl
  refine ⟨?_, ?_, ?_, ?_⟩
  · unfold _extract_gamelog_rows firstSuccess
    cases h1 : tryNormalized gl with
    | some rows => rfl
    | none =>
      simp only [firstSuccess]
      cases h2 : tryRaw gl with
      | some rows => rfl
      | none =>
        simp only [firstSuccess]
        cases h3 : tryFrames gl <;> rfl
  · intro rows
    unfold tryNormalized
    cases h : gl.nd <;> simp
  · intro rows h
    unfold tryRaw at h
    split at h
    · exact absurd h (by simp)
    · split at h
      · split at h
        · rename_i hc
          rw [← Option.some.inj h]
          simp only [ne_eq, List.map_eq_nil_iff]
          exact hc.2
        · exact absurd h (by simp)
      · split at h
        · rename_i hc
          rw [← Option.some.inj h]
          simp only [ne_eq, List.map_eq_nil_iff]
          exact hc.2
        · exact absurd h (by simp)
      · exact absurd h (by simp)
  · intro rows
    unfold tryFrames
    cases h : gl.frames with
    | error e => simp
    | ok dfs => cases dfs <;> simp

/-- Witness for C6: the raw-envelope strategy never produces an empty row
list (here at the concrete response of the counterexample). -/
theorem C6_extraction_strategy_order_witness :
    ([[("FGM", (2:ℚ))]] : List Row) ≠ [] :=
  (C6_extraction_strategy_order emptyNormalizedResp).2.2.1
    [[("FGM", (2:ℚ))]] rfl

/-! ### C9 -/

/-- The comparison row the loop builds for one category. -/
def cmpRowFor (s1 s2 : TeamStats) (c : String) : CmpRow :=
  ⟨c, s1.get c, s2.get c, leadFor c (s1.get c) (s2.get c)⟩

theorem leadFor_mem (c : String) (v1 v2 : ℚ) :
    leadFor c v1 v2 = "My Team" ∨ leadFor c v1 v2 = "Team of the opponent" ∨
      leadFor c v1 v2 = "=" := by
  unfold leadFor
  split_ifs <;> simp

theorem compareStep_fold (s1 s2 : TeamStats) :
    ∀ (cs : List String) (rows0 : List CmpRow) (m0 o0 : ℕ),
      cs.foldl (compareStep s1 s2) (rows0, m0, o0) =
        (rows0 ++ cs.map (cmpRowFor s1 s2),
          m0 + ((cs.map (cmpRowFor s1 s2)).filter
            (fun r => r.lead = "My Team")).length,
          o0 + ((cs.map (cmpRowFor s1 s2)).filter
            (fun r => r.lead = "Team of the opponent")).length) := by
  intro cs
  induction cs with
  | nil =>
    intro rows0 m0 o0
    simp
  | cons c rest ih =>
    intro rows0 m0 o0
    rw [List.foldl_cons]
    have hstep : compareStep s1 s2 (rows0, m0, o0) c =
        (rows0 ++ [cmpRowFor s1 s2 c],
          (if (cmpRowFor s1 s2 c).lead = "My Team" then m0 + 1 else m0),
          (if (cmpRowFor s1 s2 c).lead = "Team of the opponent" then o0 + 1
            else o0)) := by
      unfold compareStep cmpRowFor
      rcases leadFor_mem c (s1.get c) (s2.get c) with h | h | h <;> simp [h]
    rw [hstep, ih]
    rcases leadFor_mem c (s1.get c) (s2.get c) with h | h | h <;>
      simp [cmpRowFor, h, List.filter_cons, Prod.ext_iff] <;> omega

theorem leadFor_iff_tov (v1 v2 : ℚ) :
    (leadFor "TOV" v1 v2 = "My Team" ↔ v1 < v2) ∧
    (leadFor "TOV" v1 v2 = "Team of the opponent" ↔ v2 < v1) ∧
    (leadFor "TOV" v1 v2 = "=" ↔ v1 = v2) := by
  unfold leadFor
  rw [if_pos rfl]
  rcases lt_trichotomy v1 v2 with h | h | h
  · simp [h, lt_asymm h, h.ne]
  · simp [h, lt_irrefl]
  · simp [h, lt_asymm h, h.ne']

theorem leadFor_iff_other (c : String) (hc : ¬ c = "TOV") (v1 v2 : ℚ) :
    (leadFor c v1 v2 = "My Team" ↔ v2 < v1) ∧
    (leadFor c v1 v2 = "Team of the opponent" ↔ v1 < v2) ∧
    (leadFor c v1 v2 = "=" ↔ v1 = v2) := by
  unfold leadFor
  rw [if_neg hc]
  rcases lt_trichotomy v1 v2 with h | h | h
  · simp [h, lt_asymm h, h.ne, not_lt_of_gt h]
  · simp [h, lt_irrefl]
  · simp [h, lt_asymm h, h.ne', not_lt_of_gt h]

/-- C9: the Fetch & Compare handler classifies each of the 9 categories as a
win for team A ("My Team"), a win for team B, or a tie, lower-is-better for
TOV and higher-is-better otherwise; the win counters count exactly the
category wins, and the verdict goes to the team with strictly more category
wins, with a tie verdict otherwise. -/
theorem C9_category_comparison :
    ∀ s1 s2 : TeamStats,
      ((compareLoop s1 s2).1.map (fun r => r.category) = catsList)
      ∧ (compareLoop s1 s2).1.length = 9
      ∧ (∀ r ∈ (compareLoop s1 s2).1,
          r.mine = s1.get r.category ∧ r.opp = s2.get r.category ∧
          (r.category = "TOV" →
            ((r.lead = "My Team" ↔ r.mine < r.opp) ∧
             (r.lead = "Team of the opponent" ↔ r.opp < r.mine) ∧
             (r.lead = "=" ↔ r.mine = r.opp))) ∧
          (¬ r.category = "TOV" →
            ((r.lead = "My Team" ↔ r.opp < r.mine) ∧
             (r.lead = "Team of the opponent" ↔ r.mine < r.opp) ∧
             (r.lead = "=" ↔ r.mine = r.opp))))
      ∧ (compareLoop s1 s2).2.1 =
          ((compareLoop s1 s2).1.filter (fun r => r.lead = "My Team")).length
      ∧ (compareLoop s1 s2).2.2 =
          ((compareLoop s1 s2).1.filter
            (fun r => r.lead = "Team of the opponent")).length
      ∧ (∀ m o : ℕ,
          (verdictFor m o = "Comrade, you would win this trade. Do it!" ↔ o < m)
          ∧ (verdictFor m o =
              "Comrade, the capitalists are trying to pull your leg. You lose this trade."
              ↔ m < o)
          ∧ (verdictFor m o =
              "Comrade, this trade is a tie and leads to peaceful co-existance."
              ↔ m = o)) := by
  intro s1 s2
  have hloop : compareLoop s1 s2 =
      (catsList.map (cmpRowFor s1 s2),
        ((catsList.map (cmpRowFor s1 s2)).filter
          (fun r => r.lead = "My Team")).length,
        ((catsList.map (cmpRowFor s1 s2)).filter
          (fun r => r.lead = "Team of the opponent")).length) := by
    unfold compareLoop
    rw [compareStep_fold]
    simp
  refine ⟨?_, ?_, ?_, ?_, ?_, ?_⟩
  · rw [hloop]
    simp only
    have hcomp : (fun r : CmpRow => r.category) ∘ cmpRowFor s1 s2 =
        fun c => c := by
      funext c
      rfl
    rw [List.map_map, hcomp, List.map_id']
  · rw [hloop]
    simp [catsList]
  · rw [hloop]
    intro r hr
    simp only at hr
    obtain ⟨c, _, rfl⟩ := List.mem_map.1 hr
    refine ⟨rfl, rfl, ?_, ?_⟩
    · intro htov
      have hc : c = "TOV" := htov
      rw [hc]
      exact leadFor_iff_tov (s1.get "TOV") (s2.get "TOV")
    · intro htov
      have hc : ¬ c = "TOV" := htov
      exact leadFor_iff_other c hc (s1.get c) (s2.get c)
  · rw [hloop]
  · rw [hloop]
  · intro m o
    unfold verdictFor
    split_ifs with h1 h2 <;> refine ⟨?_, ?_, ?_⟩ <;> simp <;> omega

/-- Witness for C9 at concrete team stats: all-zero stats tie everywhere. -/
theorem C9_category_comparison_witness :
    verdictFor 0 0 =
      "Comrade, this trade is a tie and leads to peaceful co-existance." :=
  ((C9_category_comparison ⟨0, 0, 0, 0, 0, 0, 0, 0, 0⟩
    ⟨0, 0, 0, 0, 0, 0, 0, 0, 0⟩).2.2.2.2.2 0 0).2.2.mpr rfl

/-! ### C8 -/

theorem keyLe_total (a b : PlayerRec) : keyLe a b ∨ keyLe b a := by
  unfold keyLe
  rcases lt_trichotomy (!a.is_active) (!b.is_active) with h | h | h
  · exact Or.inl (Or.inl h)
  · rcases le_total a.full_name b.full_name with hn | hn
    · exact Or.inl (Or.inr ⟨h, hn⟩)
    · exact Or.inr (Or.inr ⟨h.symm, hn⟩)
  · exact Or.inr (Or.inl h)

theorem keyLe_trans (a b c : PlayerRec) :
    keyLe a b → keyLe b c → keyLe a c := by
  unfold keyLe
  rintro (h1 | ⟨h1, h1n⟩) (h2 | ⟨h2, h2n⟩)
  · exact Or.inl (lt_trans h1 h2)
  · exact Or.inl (by rw [← h2]; exact h1)
  · exact Or.inl (by rw [h1]; exact h2)
  · exact Or.inr ⟨h1.trans h2, le_trans h1n h2n⟩

theorem insertByKey_perm (a : PlayerRec) :
    ∀ l : List PlayerRec, (insertByKey a l).Perm (a :: l) := by
  intro l
  induction l with
  | nil => exact List.Perm.refl _
  | cons b rest ih =>
    unfold insertByKey
    by_cases h : keyLe a b
    · rw [if_pos h]
    · rw [if_neg h]
      exact (List.Perm.cons b ih).trans (List.Perm.swap a b rest)

theorem sortByKey_perm : ∀ l : List PlayerRec, (sortByKey l).Perm l := by
  intro l
  induction l with
  | nil => exact List.Perm.refl _
  | cons a rest ih =>
    exact (insertByKey_perm a (sortByKey rest)).trans (List.Perm.cons a ih)

theorem insertByKey_pairwise (a : PlayerRec) :
    ∀ l : List PlayerRec, l.Pairwise keyLe →
      (insertByKey a l).Pairwise keyLe := by
  intro l
  induction l with
  | nil =>
    intro _
    simp [insertByKey]
  | cons b rest ih =>
    intro h
    rw [List.pairwise_cons] at h
    unfold insertByKey
    by_cases hab : keyLe a b
    · rw [if_pos hab]
      refine List.Pairwise.cons ?_ (List.Pairwise.cons h.1 h.2)
      intro x hx
      rcases List.mem_cons.1 hx with rfl | hx
      · exact hab
      · exact keyLe_trans a b x hab (h.1 x hx)
    · rw [if_neg hab]
      refine List.Pairwise.cons ?_ (ih h.2)
      intro x hx
      have hx' := (insertByKey_perm a rest).mem_iff.1 hx
      rcases List.mem_cons.1 hx' with rfl | hx'
      · exact (keyLe_total x b).resolve_left hab
      · exact h.1 x hx'

theorem sortByKey_pairwise : ∀ l : List PlayerRec,
    (sortByKey l).Pairwise keyLe := by
  intro l
  induction l with
  | nil => simp [sortByKey]
  | cons a rest ih => exact insertByKey_pairwise a (sortByKey rest) ih

theorem dedupe_not_seen : ∀ (l : List PlayerRec) (seen : List Int)
    (r : PlayerRec), r ∈ dedupeById l seen → r.id ∉ seen := by
  intro l
  induction l with
  | nil =>
    intro seen r h
    simp [dedupeById] at h
  | cons g rest ih =>
    intro seen r h
    unfold dedupeById at h
    by_cases hg : g.id ∈ seen
    · rw [if_pos hg] at h
      exact ih seen r h
    · rw [if_neg hg] at h
      rcases List.mem_cons.1 h with rfl | h
      · exact hg
      · intro hcon
        exact ih (g.id :: seen) r h (List.mem_cons_of_mem _ hcon)

theorem dedupe_ids_nodup : ∀ (l : List PlayerRec) (seen : List Int),
    ((dedupeById l seen).map (fun r => r.id)).Nodup := by
  intro l
  induction l with
  | nil =>
    intro seen
    simp [dedupeById]
  | cons g rest ih =>
    intro seen
    unfold dedupeById
    by_cases hg : g.id ∈ seen
    · rw [if_pos hg]
      exact ih seen
    · rw [if_neg hg]
      simp only [List.map_cons, List.nodup_cons]
      constructor
      · intro hmem
        obtain ⟨r, hr, hid⟩ := List.mem_map.1 hmem
        refine dedupe_not_seen rest (g.id :: seen) r hr ?_
        rw [hid]
        exact List.mem_cons_self _ _
      · exact ih (g.id :: seen)

theorem dedupe_find : ∀ (l : List PlayerRec) (seen : List Int)
    (r : PlayerRec), r ∈ dedupeById l seen →
      l.find? (fun x => x.id == r.id) = some r := by
  intro l
  induction l with
  | nil =>
    intro seen r h
    simp [dedupeById] at h
  | cons g rest ih =>
    intro seen r h
    unfold dedupeById at h
    by_cases hg : g.id ∈ seen
    · rw [if_pos hg] at h
      have hne : r.id ≠ g.id := by
        intro he
        exact dedupe_not_seen rest seen r h (he ▸ hg)
      rw [List.find?_cons_of_neg, ih seen r h]
      simp only [beq_iff_eq]
      exact fun hc => hne hc.symm
    · rw [if_neg hg] at h
      rcases List.mem_cons.1 h with rfl | h
      · rw [List.find?_cons_of_pos]
        simp
      · have hne : r.id ≠ g.id := by
          intro he
          exact dedupe_not_seen rest (g.id :: seen) r h
            (he ▸ List.mem_cons_self _ _)
        rw [List.find?_cons_of_neg, ih (g.id :: seen) r h]
        simp only [beq_iff_eq]
        exact fun hc => hne hc.symm

/-- C8: `search_players` returns no duplicate ids (keeping each id's first
occurrence in provider order), lists active players strictly before inactive
ones with ties within a group broken by full name ascending, and returns the
empty list when nothing matches. -/
theorem C8_search_players :
    ∀ results : List PlayerRec,
      ((search_players results).map (fun r => r.id)).Nodup
      ∧ (search_players results).Pairwise
          (fun a b => (a.is_active = false → b.is_active = false)
            ∧ (a.is_active = b.is_active → a.full_name ≤ b.full_name))
      ∧ (∀ r ∈ search_players results,
          results.find? (fun x => x.id == r.id) = some r)
      ∧ (results = [] → search_players results = []) := by
  intro results
  refine ⟨?_, ?_, ?_, ?_⟩
  · have hperm :=
      (sortByKey_perm (dedupeById results [])).map (fun r => r.id)
    exact hperm.nodup_iff.mpr (dedupe_ids_nodup results [])
  · refine (sortByKey_pairwise (dedupeById results [])).imp ?_
    intro a b hab
    constructor
    · intro ha
      rcases hab with h | ⟨h, _⟩
      · exfalso
        rw [Bool.lt_iff] at h
        rw [ha] at h
        simp at h
      · have hb : (!b.is_active) = true := by
          rw [← h, ha]
          rfl
        simpa using hb
    · intro heq
      rcases hab with h | ⟨_, hn⟩
      · exfalso
        rw [heq] at h
        exact lt_irrefl _ h
      · exact hn
  · intro r hr
    exact dedupe_find results [] r
      ((sortByKey_perm (dedupeById results [])).mem_iff.1 hr)
  · intro h
    rw [h]
    rfl

/-- An inactive player sharing id 1 with a later active record. -/
def wRec1 : PlayerRec := ⟨1, "B", false⟩

/-- An active player. -/
def wRec2 : PlayerRec := ⟨2, "A", true⟩

/-- A duplicate of id 1 that de-duplication must drop. -/
def wRec3 : PlayerRec := ⟨1, "C", true⟩

/-- Witness for C8 at a concrete provider list with a duplicate id. -/
theorem C8_search_players_witness :
    [wRec1, wRec2, wRec3].find? (fun x => x.id == wRec1.id) = some wRec1 ∧
      search_players [] = [] := by
  constructor
  · exact (C8_search_players [wRec1, wRec2, wRec3]).2.2.1 wRec1 (by decide)
  · exact (C8_search_players []).2.2.2 rfl

/-! ### C4: helper lemmas about the Python string model -/

theorem head?_mem_self : ∀ (l : List Char) (c : Char), l.head? = some c → c ∈ l := by
  intro l c h
  cases l with
  | nil => simp at h
  | cons a rest =>
    simp only [List.head?_cons, Option.some.injEq] at h
    rw [← h]
    exact List.mem_cons_self a rest

theorem dropWhile_head_not (p : Char → Bool) :
    ∀ (l : List Char) (c : Char),
      (l.dropWhile p).head? = some c → p c = false := by
  intro l
  induction l with
  | nil =>
    intro c h
    simp at h
  | cons a rest ih =>
    intro c h
    rw [List.dropWhile_cons] at h
    by_cases hp : p a = true
    · rw [if_pos hp] at h
      exact ih c h
    · rw [if_neg hp] at h
      simp only [List.head?_cons, Option.some.injEq] at h
      rw [← h]
      exact Bool.eq_false_iff.mpr hp

theorem dropWhile_eq_self (p : Char → Bool) (l : List Char)
    (h : ∀ c, l.head? = some c → p c = false) : l.dropWhile p = l := by
  cases l with
  | nil => rfl
  | cons a rest =>
    rw [List.dropWhile_cons, if_neg]
    rw [h a rfl]
    simp

theorem getLast?_mem_self (l : List Char) (c : Char)
    (h : l.getLast? = some c) : c ∈ l := by
  rw [← List.head?_reverse] at h
  exact (List.mem_reverse).1 (head?_mem_self l.reverse c h)

theorem dropWhile_getLast? (p : Char → Bool) :
    ∀ (m : List Char) (c : Char),
      (m.dropWhile p).getLast? = some c → m.getLast? = some c := by
  intro m
  induction m with
  | nil =>
    intro c h
    simp at h
  | cons a rest ih =>
    intro c h
    rw [List.dropWhile_cons] at h
    by_cases hp : p a = true
    · rw [if_pos hp] at h
      have hr := ih c h
      cases hr2 : rest with
      | nil =>
        rw [hr2] at hr
        simp at hr
      | cons x xs =>
        rw [hr2] at hr
        rw [List.getLast?_cons_cons]
        exact hr
    · rw [if_neg hp] at h
      exact h

theorem stripEnd_head? (l : List Char) (c : Char) :
    (stripEnd l).head? = some c → l.head? = some c := by
  intro h
  unfold stripEnd at h
  rw [List.head?_reverse] at h
  have h2 := dropWhile_getLast? isPySpace l.reverse c h
  rw [List.getLast?_reverse] at h2
  exact h2

theorem stripEnd_getLast_not_space (l : List Char) (c : Char) :
    (stripEnd l).getLast? = some c → isPySpace c = false := by
  intro h
  unfold stripEnd at h
  rw [List.getLast?_reverse] at h
  exact dropWhile_head_not isPySpace l.reverse c h

theorem stripEnd_eq_self (l : List Char)
    (h : ∀ c, l.getLast? = some c → isPySpace c = false) : stripEnd l = l := by
  unfold stripEnd
  have h1 : l.reverse.dropWhile isPySpace = l.reverse := by
    apply dropWhile_eq_self
    intro c hc
    rw [List.head?_reverse] at hc
    exact h c hc
  rw [h1, List.reverse_reverse]

theorem pyStrip_idem (l : List Char) : pyStrip (pyStrip l) = pyStrip l := by
  unfold pyStrip
  have h1 : (stripEnd (l.dropWhile isPySpace)).dropWhile isPySpace =
      stripEnd (l.dropWhile isPySpace) := by
    apply dropWhile_eq_self
    intro c hc
    exact dropWhile_head_not isPySpace l c (stripEnd_head? _ c hc)
  rw [h1]
  exact stripEnd_eq_self _ (fun c hc => stripEnd_getLast_not_space _ c hc)

theorem pyStrip_eq_self_of (l : List Char)
    (h : ∀ c ∈ l, isPySpace c = false) : pyStrip l = l := by
  unfold pyStrip
  have h1 : l.dropWhile isPySpace = l := by
    apply dropWhile_eq_self
    intro c hc
    exact h c (head?_mem_self l c hc)
  rw [h1]
  exact stripEnd_eq_self l (fun c hc => h c (getLast?_mem_self l c hc))

theorem stripEnd_sublist (l : List Char) : (stripEnd l).Sublist l := by
  unfold stripEnd
  have h1 : (l.reverse.dropWhile isPySpace).Sublist l.reverse :=
    List.dropWhile_sublist _
  have h2 := h1.reverse
  rwa [List.reverse_reverse] at h2

theorem pyStrip_subset (l : List Char) : ∀ c ∈ pyStrip l, c ∈ l := by
  intro c hc
  unfold pyStrip at hc
  exact (List.dropWhile_sublist isPySpace).subset
    ((stripEnd_sublist (l.dropWhile isPySpace)).subset hc)

theorem pyInt_nonneg (l : List Char) (k : Int)
    (h : pyInt l = some k) (hnd : '-' ∉ l) : 0 ≤ k := by
  unfold pyInt at h
  cases hs : pyStrip l with
  | nil =>
    rw [hs] at h
    simp at h
  | cons c rest =>
    rw [hs] at h
    have h' : (if c = '+' then (digitRun rest).map (fun (v : ℕ) => (v : Int))
        else if c = '-' then (digitRun rest).map (fun (v : ℕ) => -(v : Int))
        else (digitRun (c :: rest)).map (fun (v : ℕ) => (v : Int))) = some k := h
    by_cases hp : c = '+'
    · rw [if_pos hp] at h'
      obtain ⟨v, hv1, hv2⟩ := Option.map_eq_some'.1 h'
      have hv3 : (v : Int) = k := hv2
      omega
    · rw [if_neg hp] at h'
      by_cases hm : c = '-'
      · exfalso
        apply hnd
        apply pyStrip_subset l
        rw [hs, ← hm]
        exact List.mem_cons_self c rest
      · rw [if_neg hm] at h'
        obtain ⟨v, hv1, hv2⟩ := Option.map_eq_some'.1 h'
        have hv3 : (v : Int) = k := hv2
        omega

theorem digitChar_not_space (d : ℕ) (hd : d < 10) :
    isPySpace (digitChar d) = false := by
  interval_cases d <;> decide

theorem digitChar_ne_dash (d : ℕ) (hd : d < 10) : digitChar d ≠ '-' := by
  interval_cases d <;> decide

theorem natCharsAux_digits :
    ∀ (fuel n : ℕ) (c : Char), c ∈ natCharsAux fuel n →
      ∃ d, d < 10 ∧ c = digitChar d := by
  intro fuel
  induction fuel with
  | zero =>
    intro n c h
    simp [natCharsAux] at h
  | succ f ih =>
    intro n c h
    unfold natCharsAux at h
    by_cases hn : n = 0
    · rw [if_pos hn] at h
      simp at h
    · rw [if_neg hn] at h
      rcases List.mem_append.1 h with h | h
      · exact ih (n / 10) c h
      · have hc : c = digitChar (n % 10) := by simpa using h
        exact ⟨n % 10, Nat.mod_lt n (by omega), hc⟩

theorem natChars_digits (n : ℕ) :
    ∀ c ∈ natChars n, ∃ d, d < 10 ∧ c = digitChar d := by
  intro c h
  unfold natChars at h
  by_cases hn : n = 0
  · rw [if_pos hn] at h
    simp at h
    exact ⟨0, by omega, by rw [h]; rfl⟩
  · rw [if_neg hn] at h
    exact natCharsAux_digits n n c h

theorem natChars_ne_nil (n : ℕ) : natChars n ≠ [] := by
  unfold natChars
  by_cases h : n = 0
  · simp [h]
  · rw [if_neg h]
    obtain ⟨m, rfl⟩ : ∃ m, n = m + 1 := ⟨n - 1, by omega⟩
    unfold natCharsAux
    rw [if_neg h]
    simp

theorem intChars_ne_nil (i : Int) : intChars i ≠ [] := by
  unfold intChars
  by_cases h : i < 0
  · simp [h]
  · simp [h, natChars_ne_nil]

theorem intChars_nonneg_digits (i : Int) (h : 0 ≤ i) :
    ∀ c ∈ intChars i, ∃ d, d < 10 ∧ c = digitChar d := by
  unfold intChars
  rw [if_neg (not_lt.2 h)]
  exact natChars_digits _

theorem intChars_chars (i : Int) :
    ∀ c ∈ intChars i, (∃ d, d < 10 ∧ c = digitChar d) ∨ c = '-' := by
  intro c h
  unfold intChars at h
  by_cases hi : i < 0
  · rw [if_pos hi] at h
    rcases List.mem_cons.1 h with rfl | h
    · exact Or.inr rfl
    · exact Or.inl (natChars_digits _ c h)
  · rw [if_neg hi] at h
    exact Or.inl (natChars_digits _ c h)

theorem natCharsAux_of_zero (fuel : ℕ) : natCharsAux fuel 0 = [] := by
  cases fuel <;> simp [natCharsAux]

theorem natCharsAux_single (fuel n : ℕ) (h1 : 0 < n) (h2 : n < 10)
    (h3 : 1 ≤ fuel) : natCharsAux fuel n = [digitChar n] := by
  obtain ⟨f, rfl⟩ : ∃ f, fuel = f + 1 := ⟨fuel - 1, by omega⟩
  unfold natCharsAux
  rw [if_neg (by omega)]
  rw [Nat.div_eq_of_lt h2, natCharsAux_of_zero, Nat.mod_eq_of_lt h2]
  rfl

theorem natChars_length_le_two (n : ℕ) (h : n < 100) :
    (natChars n).length ≤ 2 := by
  unfold natChars
  by_cases h0 : n = 0
  · simp [h0]
  · rw [if_neg h0]
    by_cases h10 : n < 10
    · rw [natCharsAux_single n n (by omega) h10 (by omega)]
      simp
    · obtain ⟨m, rfl⟩ : ∃ m, n = m + 1 := ⟨n - 1, by omega⟩
      unfold natCharsAux
      rw [if_neg h0]
      have hd : 0 < (m + 1) / 10 := by
        have h2 := (Nat.one_le_div_iff (show 0 < 10 by omega)).mpr
          (show 10 ≤ m + 1 by omega)
        omega
      have hlt : (m + 1) / 10 < 10 := Nat.div_lt_of_lt_mul (by omega)
      rw [natCharsAux_single m ((m + 1) / 10) hd hlt (by omega)]
      simp

theorem pad2_length (e : Int) (h0 : 0 ≤ e) (h1 : e < 100) :
    (pad2 e).length = 2 := by
  unfold pad2
  have ht : intChars e = natChars e.toNat := by
    unfold intChars
    rw [if_neg (not_lt.2 h0)]
  have hle : (natChars e.toNat).length ≤ 2 :=
    natChars_length_le_two _ (by omega)
  have hpos : 0 < (natChars e.toNat).length :=
    List.length_pos.2 (natChars_ne_nil e.toNat)
  rw [ht]
  by_cases hlt : (natChars e.toNat).length < 2
  · rw [if_pos hlt]
    simp
    omega
  · rw [if_neg hlt]
    omega

theorem pad2_digits (e : Int) (h0 : 0 ≤ e) :
    ∀ c ∈ pad2 e, ∃ d, d < 10 ∧ c = digitChar d := by
  intro c h
  unfold pad2 at h
  by_cases hlt : (intChars e).length < 2
  · rw [if_pos hlt] at h
    rcases List.mem_cons.1 h with rfl | h
    · exact ⟨0, by omega, rfl⟩
    · exact intChars_nonneg_digits e h0 c h
  · rw [if_neg hlt] at h
    exact intChars_nonneg_digits e h0 c h

theorem lastTwo_length (l : List Char) (h : l ≠ []) :
    (lastTwo l).length = 1 ∨ (lastTwo l).length = 2 := by
  unfold lastTwo
  rw [List.length_drop]
  have : 0 < l.length := List.length_pos.2 h
  omega

theorem lastTwo_subset (l : List Char) : ∀ c ∈ lastTwo l, c ∈ l := by
  intro c hc
  exact List.drop_subset _ l hc

theorem takeWhile_append_dash (a b : List Char) (h : '-' ∉ a) :
    (a ++ '-' :: b).takeWhile (fun c => c != '-') = a := by
  induction a with
  | nil => simp
  | cons x xs ih =>
    have hx : (x != '-') = true := by
      simp only [bne_iff_ne, ne_eq]
      intro hc
      exact h (hc ▸ List.mem_cons_self x xs)
    have hxs : '-' ∉ xs := fun hc => h (List.mem_cons_of_mem _ hc)
    rw [List.cons_append, List.takeWhile_cons, if_pos hx, ih hxs]

theorem dropWhile_append_dash (a b : List Char) (h : '-' ∉ a) :
    (a ++ '-' :: b).dropWhile (fun c => c != '-') = '-' :: b := by
  induction a with
  | nil => simp
  | cons x xs ih =>
    have hx : (x != '-') = true := by
      simp only [bne_iff_ne, ne_eq]
      intro hc
      exact h (hc ▸ List.mem_cons_self x xs)
    have hxs : '-' ∉ xs := fun hc => h (List.mem_cons_of_mem _ hc)
    rw [List.cons_append, List.dropWhile_cons, if_pos hx, ih hxs]

theorem splitDash_append (a b : List Char) (h : '-' ∉ a) :
    splitDash (a ++ '-' :: b) = (a, b) := by
  unfold splitDash
  rw [takeWhile_append_dash a b h, dropWhile_append_dash a b h]
  rfl

theorem dash_not_mem_splitFst (s : List Char) : '-' ∉ (splitDash s).1 := by
  unfold splitDash
  intro h
  have := List.mem_takeWhile_imp h
  simp at this

/-- Any string of the shape `<digits>-<one or two non-space characters>`
is already canonical for the normalizer and passes through unchanged. -/
theorem normOutput_canonical (sy : Int) (hsy : 0 ≤ sy) (t : List Char)
    (ht_len : t.length = 1 ∨ t.length = 2)
    (ht_chars : ∀ c ∈ t, (∃ d, d < 10 ∧ c = digitChar d) ∨ c = '-') :
    normSeasonChars (intChars sy ++ '-' :: t) = intChars sy ++ '-' :: t := by
  have hchars : ∀ c ∈ intChars sy ++ '-' :: t, isPySpace c = false := by
    intro c hc
    rcases List.mem_append.1 hc with hc | hc
    · obtain ⟨d, hd, rfl⟩ := intChars_nonneg_digits sy hsy c hc
      exact digitChar_not_space d hd
    · rcases List.mem_cons.1 hc with rfl | hc
      · decide
      · rcases ht_chars c hc with ⟨d, hd, rfl⟩ | rfl
        · exact digitChar_not_space d hd
        · decide
  have hstrip : pyStrip (intChars sy ++ '-' :: t) = intChars sy ++ '-' :: t :=
    pyStrip_eq_self_of _ hchars
  have hdash_not : '-' ∉ intChars sy := by
    intro hm
    obtain ⟨d, hd, he⟩ := intChars_nonneg_digits sy hsy '-' hm
    exact digitChar_ne_dash d hd he.symm
  have hsplit : splitDash (intChars sy ++ '-' :: t) = (intChars sy, t) :=
    splitDash_append _ _ hdash_not
  have hne : intChars sy ++ '-' :: t ≠ [] := by simp
  have hcond : '-' ∈ intChars sy ++ '-' :: t ∧
      ((splitDash (intChars sy ++ '-' :: t)).2.length = 1 ∨
        (splitDash (intChars sy ++ '-' :: t)).2.length = 2) := by
    refine ⟨List.mem_append.2 (Or.inr (List.mem_cons_self _ _)), ?_⟩
    rw [hsplit]
    exact ht_len
  simp only [normSeasonChars, hstrip]
  rw [if_neg hne, if_pos hcond]

theorem norm_eq_of_empty (l : List Char) (h1 : pyStrip l = []) :
    normSeasonChars l = [] := by
  simp [normSeasonChars, h1]

theorem norm_eq_of_canonical (l : List Char) (h1 : pyStrip l ≠ [])
    (h2 : '-' ∈ pyStrip l ∧ ((splitDash (pyStrip l)).2.length = 1 ∨
      (splitDash (pyStrip l)).2.length = 2)) :
    normSeasonChars l = pyStrip l := by
  simp only [normSeasonChars]
  rw [if_neg h1, if_pos h2]

theorem norm_eq_of_dash_some (l : List Char) (h1 : pyStrip l ≠ [])
    (h2 : ¬('-' ∈ pyStrip l ∧ ((splitDash (pyStrip l)).2.length = 1 ∨
      (splitDash (pyStrip l)).2.length = 2)))
    (h3 : '-' ∈ pyStrip l) (sy ey : Int)
    (hsy : pyInt ((splitDash (pyStrip l)).1.take 4) = some sy)
    (hey : (if (splitDash (pyStrip l)).2.length = 4
        then pyInt ((splitDash (pyStrip l)).2.take 4)
        else pyInt (splitDash (pyStrip l)).2) = some ey) :
    normSeasonChars l = intChars sy ++ '-' :: lastTwo (intChars ey) := by
  simp only [normSeasonChars]
  rw [if_neg h1, if_neg h2, if_pos h3, hsy, hey]

theorem norm_eq_of_dash_fail (l : List Char) (h1 : pyStrip l ≠ [])
    (h2 : ¬('-' ∈ pyStrip l ∧ ((splitDash (pyStrip l)).2.length = 1 ∨
      (splitDash (pyStrip l)).2.length = 2)))
    (h3 : '-' ∈ pyStrip l)
    (h4 : pyInt ((splitDash (pyStrip l)).1.take 4) = none ∨
      (if (splitDash (pyStrip l)).2.length = 4
        then pyInt ((splitDash (pyStrip l)).2.take 4)
        else pyInt (splitDash (pyStrip l)).2) = none) :
    normSeasonChars l = l := by
  simp only [normSeasonChars]
  rw [if_neg h1, if_neg h2, if_pos h3]
  rcases h4 with h4 | h4
  · rw [h4]
  · rw [h4]
    cases pyInt ((splitDash (pyStrip l)).1.take 4) <;> rfl

theorem norm_eq_of_bare_some (l : List Char) (h1 : pyStrip l ≠ [])
    (h2 : ¬('-' ∈ pyStrip l ∧ ((splitDash (pyStrip l)).2.length = 1 ∨
      (splitDash (pyStrip l)).2.length = 2)))
    (h3 : ¬ '-' ∈ pyStrip l) (sy : Int)
    (hsy : pyInt ((pyStrip l).take 4) = some sy) :
    normSeasonChars l = intChars sy ++ '-' :: pad2 ((sy + 1) % 100) := by
  simp only [normSeasonChars]
  rw [if_neg h1, if_neg h2, if_neg h3, hsy]

theorem norm_eq_of_bare_fail (l : List Char) (h1 : pyStrip l ≠ [])
    (h2 : ¬('-' ∈ pyStrip l ∧ ((splitDash (pyStrip l)).2.length = 1 ∨
      (splitDash (pyStrip l)).2.length = 2)))
    (h3 : ¬ '-' ∈ pyStrip l)
    (hsy : pyInt ((pyStrip l).take 4) = none) :
    normSeasonChars l = l := by
  simp only [normSeasonChars]
  rw [if_neg h1, if_neg h2, if_neg h3, hsy]

theorem normSeasonChars_idem (l : List Char) :
    normSeasonChars (normSeasonChars l) = normSeasonChars l := by
  by_cases h1 : pyStrip l = []
  · rw [norm_eq_of_empty l h1]
    exact norm_eq_of_empty [] rfl
  · by_cases h2 : '-' ∈ pyStrip l ∧ ((splitDash (pyStrip l)).2.length = 1 ∨
        (splitDash (pyStrip l)).2.length = 2)
    · rw [norm_eq_of_canonical l h1 h2]
      have hmain := norm_eq_of_canonical (pyStrip l)
        (by rw [pyStrip_idem]; exact h1)
        (by rw [pyStrip_idem]; exact h2)
      rw [pyStrip_idem] at hmain
      exact hmain
    · by_cases h3 : '-' ∈ pyStrip l
      · cases hsy : pyInt ((splitDash (pyStrip l)).1.take 4) with
        | none =>
          have hl := norm_eq_of_dash_fail l h1 h2 h3 (Or.inl hsy)
          rw [hl]
          exact hl
        | some sy =>
          cases hey : (if (splitDash (pyStrip l)).2.length = 4
              then pyInt ((splitDash (pyStrip l)).2.take 4)
              else pyInt (splitDash (pyStrip l)).2) with
          | none =>
            have hl := norm_eq_of_dash_fail l h1 h2 h3 (Or.inr hey)
            rw [hl]
            exact hl
          | some ey =>
            have hsy0 : 0 ≤ sy := by
              apply pyInt_nonneg _ _ hsy
              intro hm
              exact dash_not_mem_splitFst (pyStrip l) (List.take_subset 4 _ hm)
            rw [norm_eq_of_dash_some l h1 h2 h3 sy ey hsy hey]
            exact normOutput_canonical sy hsy0 _
              (lastTwo_length _ (intChars_ne_nil ey))
              (fun c hc => intChars_chars ey c (lastTwo_subset _ c hc))
      · cases hsy : pyInt ((pyStrip l).take 4) with
        | none =>
          have hl := norm_eq_of_bare_fail l h1 h2 h3 hsy
          rw [hl]
          exact hl
        | some sy =>
          have hsy0 : 0 ≤ sy :=
            pyInt_nonneg _ _ hsy (fun hm => h3 (List.take_subset 4 _ hm))
          have hmn : 0 ≤ (sy + 1) % 100 := Int.emod_nonneg _ (by norm_num)
          have hml : (sy + 1) % 100 < 100 := Int.emod_lt_of_pos _ (by norm_num)
          rw [norm_eq_of_bare_some l h1 h2 h3 sy hsy]
          exact normOutput_canonical sy hsy0 _
            (Or.inr (pad2_length _ hmn hml))
            (fun c hc => Or.inl (pad2_digits _ hmn c hc))

theorem norm_unchanged_of_parse_failure (l : List Char)
    (hf : normParseFails l) : normSeasonChars l = l := by
  obtain ⟨h1, h2, h3⟩ := hf
  by_cases hd : '-' ∈ pyStrip l
  · rw [if_pos hd] at h3
    exact norm_eq_of_dash_fail l h1 h2 hd h3
  · rw [if_neg hd] at h3
    exact norm_eq_of_bare_fail l h1 h2 hd h3

/-- C4: season normalization is idempotent on every string; a bare year and
a 4-digit-tail season normalize to the canonical "YYYY-YY"; an already
canonical string passes through unchanged; and on any parse failure the
original input is returned unchanged. -/
theorem C4_season_normalization :
    (∀ s : String,
      _normalize_nba_season (_normalize_nba_season s) = _normalize_nba_season s)
    ∧ _normalize_nba_season "2024" = "2024-25"
    ∧ _normalize_nba_season "2024-2025" = "2024-25"
    ∧ _normalize_nba_season "2024-25" = "2024-25"
    ∧ (∀ s : String, normParseFails s.data → _normalize_nba_season s = s) := by
  refine ⟨?_, ?_, ?_, ?_, ?_⟩
  · intro s
    unfold _normalize_nba_season
    rw [show (List.asString (normSeasonChars s.data)).data =
      normSeasonChars s.data from rfl]
    rw [normSeasonChars_idem]
  · decide
  · decide
  · decide
  · intro s hf
    unfold _normalize_nba_season
    rw [norm_unchanged_of_parse_failure s.data hf]
    rfl

/-- Witness for C4: the non-numeric input "abcd" hits the parse-failure
branch and is returned unchanged. -/
theorem C4_season_normalization_witness :
    _normalize_nba_season "abcd" = "abcd" :=
  C4_season_normalization.2.2.2.2 "abcd" (by decide)

end Chairman
